import Mathlib

/-!
Shallow embedding of the PoE (Portfolio of Evidence) workflow system.

Sources embedded:
- src/shared/schema.ts    : entity record shapes (column sets of each table)
- src/server/storage.ts   : the in-memory entity store (class MemStorage)
- src/server/routes.ts    : the Express route handlers (registerRoutes)

Modelling conventions:
- JS numbers that hold identifiers are Nat; timestamps (Date values) are Int
  milliseconds; the fractional turnaround arithmetic of the report code is
  carried out in Rat.
- Each JS Map<number, T> collection is a List T in insertion order together
  with its id counter: MemStorage never deletes, `Array.from(map.values())`
  iterates in insertion order, and `map.set` on an existing key keeps the
  original position, which the List encoding mirrors (append for a fresh id,
  positional replacement for an update).
- `async/await` sequencing is direct state passing; every storage method is
  `State -> ... -> result × State` (or just a read).
- A route handler takes the authenticated caller (requireAuth is assumed to
  have succeeded), the current clock value `now` used for every `new Date()`
  of that request, and the parsed request body; it returns an ApiResult and
  the new store state.  The requireRole / validateSchema middlewares are the
  leading checks of each handler, in source order.
-/

namespace POE

/-- Criteria checklists (`jsonb` criteria columns): label -> met/not-met. -/
abbrev Criteria := List (String × Bool)

/-- users table (schema.ts) as materialized by MemStorage.createUser. -/
structure User where
  id : Nat
  username : String
  password : String
  fullName : String
  email : String
  role : String
  departmentId : Option Nat
  courseId : Option Nat
  classIntakeId : Option Nat
  createdAt : Int
  isActive : Bool
deriving Repr, DecidableEq

/-- departments table. -/
structure Department where
  id : Nat
  name : String
  code : String
  description : Option String
deriving Repr, DecidableEq

/-- study_levels table. -/
structure StudyLevel where
  id : Nat
  name : String
  description : Option String
  order : Int
deriving Repr, DecidableEq

/-- courses table. -/
structure Course where
  id : Nat
  name : String
  code : String
  departmentId : Nat
  studyLevelId : Nat
  description : Option String
deriving Repr, DecidableEq

/-- class_intakes table. -/
structure ClassIntake where
  id : Nat
  name : String
  courseId : Nat
  startDate : String
  endDate : String
deriving Repr, DecidableEq

/-- Module records as materialized by MemStorage.createModule (storage.ts):
fields name, code, description, courseId from the insert payload plus
credits defaulted to 0.  (The `modules` table declaration itself is not in
the shared schema file shipped under src/; the shape used here is the one
storage.ts constructs and getModulesByCourse reads.) -/
structure Module where
  id : Nat
  name : String
  code : String
  description : Option String
  courseId : Nat
  credits : Int
deriving Repr, DecidableEq

/-- Unit records as materialized by MemStorage.createUnit (storage.ts):
insert payload plus defaulted description and moduleId. -/
structure Unit where
  id : Nat
  name : String
  code : String
  description : Option String
  moduleId : Option Nat
deriving Repr, DecidableEq

/-- tasks table. -/
structure Task where
  id : Nat
  unitId : Nat
  name : String
  description : Option String
  criteria : Criteria
deriving Repr, DecidableEq

/-- assignments table, as materialized by MemStorage.createAssignment: the
handler spreads the raw request body into the record, so the stored record
also carries the `traineeId` key the admin client sends even though the
declared table schema lacks that column.  `traineeId = none` models the key
being absent (JS `undefined`), in which case the `a.traineeId === n`
comparisons of storage.ts/routes.ts are always false. -/
structure Assignment where
  id : Nat
  classIntakeId : Nat
  assessorId : Nat
  unitId : Nat
  traineeId : Option Nat
  createdAt : Int
deriving Repr, DecidableEq

/-- submissions table. -/
structure Submission where
  id : Nat
  traineeId : Nat
  taskId : Nat
  unitId : Nat
  title : String
  description : Option String
  submissionDate : Int
  status : String
deriving Repr, DecidableEq

/-- submission_files table. -/
structure SubmissionFile where
  id : Nat
  submissionId : Nat
  fileName : String
  fileType : String
  filePath : String
  fileSize : Nat
  uploadDate : Int
deriving Repr, DecidableEq

/-- assessments table. -/
structure Assessment where
  id : Nat
  submissionId : Nat
  assessorId : Nat
  feedback : Option String
  criteria : Criteria
  status : String
  assessmentDate : Int
deriving Repr, DecidableEq

/-- verifications table. -/
structure Verification where
  id : Nat
  assessmentId : Nat
  verifierId : Nat
  verifierType : String
  status : String
  comments : Option String
  verificationDate : Int
deriving Repr, DecidableEq

/-- notifications table. -/
structure Notification where
  id : Nat
  userId : Nat
  title : String
  message : String
  isRead : Bool
  createdAt : Int
  type : String
  linkedItemId : Option Nat
deriving Repr, DecidableEq

/-- activity_logs table.  The free-form `details` jsonb payload is kept as a
rendered string; nothing in the verified logic inspects it. -/
structure ActivityLog where
  id : Nat
  userId : Nat
  action : String
  details : String
  timestamp : Int
  ipAddress : Option String
deriving Repr, DecidableEq

/-! Insert payloads (the drizzle-zod insert schemas): the record minus the
server-assigned id / server-assigned timestamp, with optional columns
Option-typed exactly where the table column is nullable or defaulted. -/

structure InsertUser where
  username : String
  password : String
  fullName : String
  email : String
  role : String
  departmentId : Option Nat
  courseId : Option Nat
  classIntakeId : Option Nat
  isActive : Option Bool
deriving Repr, DecidableEq

structure InsertDepartment where
  name : String
  code : String
  description : Option String
deriving Repr, DecidableEq

structure InsertStudyLevel where
  name : String
  description : Option String
  order : Int
deriving Repr, DecidableEq

structure InsertCourse where
  name : String
  code : String
  departmentId : Nat
  studyLevelId : Nat
  description : Option String
deriving Repr, DecidableEq

structure InsertClassIntake where
  name : String
  courseId : Nat
  startDate : String
  endDate : String
deriving Repr, DecidableEq

structure InsertModule where
  name : String
  code : String
  description : Option String
  courseId : Nat
deriving Repr, DecidableEq

structure InsertUnit where
  name : String
  code : String
  description : Option String
  moduleId : Option Nat
deriving Repr, DecidableEq

structure InsertTask where
  unitId : Nat
  name : String
  description : Option String
  criteria : Option Criteria
deriving Repr, DecidableEq

structure InsertAssignment where
  classIntakeId : Nat
  assessorId : Nat
  unitId : Nat
  traineeId : Option Nat
deriving Repr, DecidableEq

structure InsertSubmission where
  traineeId : Nat
  taskId : Nat
  unitId : Nat
  title : String
  description : Option String
  status : Option String
deriving Repr, DecidableEq

structure InsertSubmissionFile where
  submissionId : Nat
  fileName : String
  fileType : String
  filePath : String
  fileSize : Nat
deriving Repr, DecidableEq

structure InsertAssessment where
  submissionId : Nat
  assessorId : Nat
  feedback : Option String
  criteria : Option Criteria
  status : String
deriving Repr, DecidableEq

structure InsertVerification where
  assessmentId : Nat
  verifierId : Nat
  verifierType : String
  status : String
  comments : Option String
deriving Repr, DecidableEq

structure InsertNotification where
  userId : Nat
  title : String
  message : String
  isRead : Bool
  type : String
  linkedItemId : Option Nat
deriving Repr, DecidableEq

structure InsertActivityLog where
  userId : Nat
  action : String
  details : String
  ipAddress : Option String
deriving Repr, DecidableEq

/-- The MemStorage state: one insertion-ordered collection plus one id
counter per entity kind (storage.ts, class MemStorage). -/
structure State where
  users : List User
  departments : List Department
  studyLevels : List StudyLevel
  courses : List Course
  classIntakes : List ClassIntake
  modules : List Module
  units : List Unit
  tasks : List Task
  assignments : List Assignment
  submissions : List Submission
  submissionFiles : List SubmissionFile
  assessments : List Assessment
  verifications : List Verification
  notifications : List Notification
  activityLogs : List ActivityLog
  userIdCounter : Nat
  departmentIdCounter : Nat
  studyLevelIdCounter : Nat
  courseIdCounter : Nat
  classIntakeIdCounter : Nat
  moduleIdCounter : Nat
  unitIdCounter : Nat
  taskIdCounter : Nat
  assignmentIdCounter : Nat
  submissionIdCounter : Nat
  submissionFileIdCounter : Nat
  assessmentIdCounter : Nat
  verificationIdCounter : Nat
  notificationIdCounter : Nat
  activityLogIdCounter : Nat
deriving Repr, DecidableEq

/-- The store as MemStorage's constructor builds it before seeding: every
collection empty, every counter 1. -/
def emptyState : State where
  users := []
  departments := []
  studyLevels := []
  courses := []
  classIntakes := []
  modules := []
  units := []
  tasks := []
  assignments := []
  submissions := []
  submissionFiles := []
  assessments := []
  verifications := []
  notifications := []
  activityLogs := []
  userIdCounter := 1
  departmentIdCounter := 1
  studyLevelIdCounter := 1
  courseIdCounter := 1
  classIntakeIdCounter := 1
  moduleIdCounter := 1
  unitIdCounter := 1
  taskIdCounter := 1
  assignmentIdCounter := 1
  submissionIdCounter := 1
  submissionFileIdCounter := 1
  assessmentIdCounter := 1
  verificationIdCounter := 1
  notificationIdCounter := 1
  activityLogIdCounter := 1

namespace MemStorage

/-! ===== User Management ===== -/

def getUser (st : State) (id : Nat) : Option User :=
  st.users.find? (fun u => u.id == id)

def getUserByUsername (st : State) (username : String) : Option User :=
  st.users.find? (fun u => u.username == username)

def createUser (st : State) (now : Int) (insertUser : InsertUser) : User × State :=
  let id := st.userIdCounter
  let user : User :=
    { id := id
      username := insertUser.username
      password := insertUser.password
      fullName := insertUser.fullName
      email := insertUser.email
      role := insertUser.role
      createdAt := now
      departmentId := insertUser.departmentId
      courseId := insertUser.courseId
      classIntakeId := insertUser.classIntakeId
      isActive := insertUser.isActive.getD true }
  (user, { st with users := st.users ++ [user], userIdCounter := id + 1 })

/-- `updateUser(id, data)` with the merged record already computed by the
caller (the only caller passes the full `{...user, ...changes}` object, which
the method's own `{...stored, ...partial}` merge reproduces). -/
def updateUser (st : State) (id : Nat) (updatedUser : User) : Option (User × State) :=
  match getUser st id with
  | none => none
  | some _ =>
      some (updatedUser,
        { st with users := st.users.map (fun u => if u.id == id then updatedUser else u) })

def getAllUsers (st : State) : List User :=
  st.users

def getUsersByRole (st : State) (role : String) : List User :=
  st.users.filter (fun user => user.role == role)

/-! ===== Department / StudyLevel / Course / ClassIntake / Module ===== -/

def createDepartment (st : State) (insertDepartment : InsertDepartment) : Department × State :=
  let id := st.departmentIdCounter
  let department : Department :=
    { id := id
      name := insertDepartment.name
      code := insertDepartment.code
      description := insertDepartment.description }
  (department, { st with departments := st.departments ++ [department],
                         departmentIdCounter := id + 1 })

def getDepartment (st : State) (id : Nat) : Option Department :=
  st.departments.find? (fun d => d.id == id)

def createStudyLevel (st : State) (insertStudyLevel : InsertStudyLevel) : StudyLevel × State :=
  let id := st.studyLevelIdCounter
  let studyLevel : StudyLevel :=
    { id := id
      name := insertStudyLevel.name
      description := insertStudyLevel.description
      order := insertStudyLevel.order }
  (studyLevel, { st with studyLevels := st.studyLevels ++ [studyLevel],
                         studyLevelIdCounter := id + 1 })

def createCourse (st : State) (insertCourse : InsertCourse) : Course × State :=
  let id := st.courseIdCounter
  let course : Course :=
    { id := id
      name := insertCourse.name
      code := insertCourse.code
      departmentId := insertCourse.departmentId
      studyLevelId := insertCourse.studyLevelId
      description := insertCourse.description }
  (course, { st with courses := st.courses ++ [course], courseIdCounter := id + 1 })

def getCourse (st : State) (id : Nat) : Option Course :=
  st.courses.find? (fun c => c.id == id)

def getCoursesByDepartment (st : State) (departmentId : Nat) : List Course :=
  st.courses.filter (fun course => course.departmentId == departmentId)

def getCoursesByStudyLevel (st : State) (studyLevelId : Nat) : List Course :=
  st.courses.filter (fun course => course.studyLevelId == studyLevelId)

def createClassIntake (st : State) (insertClassIntake : InsertClassIntake) :
    ClassIntake × State :=
  let id := st.classIntakeIdCounter
  let classIntake : ClassIntake :=
    { id := id
      name := insertClassIntake.name
      courseId := insertClassIntake.courseId
      startDate := insertClassIntake.startDate
      endDate := insertClassIntake.endDate }
  (classIntake, { st with classIntakes := st.classIntakes ++ [classIntake],
                          classIntakeIdCounter := id + 1 })

def getClassIntakesByCourse (st : State) (courseId : Nat) : List ClassIntake :=
  st.classIntakes.filter (fun classIntake => classIntake.courseId == courseId)

def createModule (st : State) (insertModule : InsertModule) : Module × State :=
  let id := st.moduleIdCounter
  let module : Module :=
    { id := id
      name := insertModule.name
      code := insertModule.code
      description := insertModule.description
      courseId := insertModule.courseId
      credits := 0 }
  (module, { st with modules := st.modules ++ [module], moduleIdCounter := id + 1 })

def getModulesByCourse (st : State) (courseId : Nat) : List Module :=
  st.modules.filter (fun module => module.courseId == courseId)

/-! ===== Unit / Task ===== -/

def createUnit (st : State) (insertUnit : InsertUnit) : Unit × State :=
  let id := st.unitIdCounter
  let unit : Unit :=
    { id := id
      name := insertUnit.name
      code := insertUnit.code
      description := insertUnit.description
      moduleId := insertUnit.moduleId }
  (unit, { st with units := st.units ++ [unit], unitIdCounter := id + 1 })

def getUnit (st : State) (id : Nat) : Option Unit :=
  st.units.find? (fun u => u.id == id)

def createTask (st : State) (insertTask : InsertTask) : Task × State :=
  let id := st.taskIdCounter
  let task : Task :=
    { id := id
      unitId := insertTask.unitId
      name := insertTask.name
      description := insertTask.description
      criteria := insertTask.criteria.getD [] }
  (task, { st with tasks := st.tasks ++ [task], taskIdCounter := id + 1 })

def getTask (st : State) (id : Nat) : Option Task :=
  st.tasks.find? (fun t => t.id == id)

def getTasksByUnit (st : State) (unitId : Nat) : List Task :=
  st.tasks.filter (fun task => task.unitId == unitId)

/-! ===== Assignment ===== -/

def createAssignment (st : State) (now : Int) (insertAssignment : InsertAssignment) :
    Assignment × State :=
  let id := st.assignmentIdCounter
  let assignment : Assignment :=
    { id := id
      classIntakeId := insertAssignment.classIntakeId
      assessorId := insertAssignment.assessorId
      unitId := insertAssignment.unitId
      traineeId := insertAssignment.traineeId
      createdAt := now }
  (assignment, { st with assignments := st.assignments ++ [assignment],
                         assignmentIdCounter := id + 1 })

def getAllAssignments (st : State) : List Assignment :=
  st.assignments

def getAssignmentsByTrainee (st : State) (traineeId : Nat) : List Assignment :=
  st.assignments.filter (fun assignment => assignment.traineeId == some traineeId)

def getAssignmentsByAssessor (st : State) (assessorId : Nat) : List Assignment :=
  st.assignments.filter (fun assignment => assignment.assessorId == assessorId)

/-! ===== Submission ===== -/

def createSubmission (st : State) (now : Int) (insertSubmission : InsertSubmission) :
    Submission × State :=
  let id := st.submissionIdCounter
  let submission : Submission :=
    { id := id
      traineeId := insertSubmission.traineeId
      taskId := insertSubmission.taskId
      unitId := insertSubmission.unitId
      title := insertSubmission.title
      submissionDate := now
      status := insertSubmission.status.getD "pending"
      description := insertSubmission.description }
  (submission, { st with submissions := st.submissions ++ [submission],
                         submissionIdCounter := id + 1 })

def getSubmission (st : State) (id : Nat) : Option Submission :=
  st.submissions.find? (fun s => s.id == id)

/-- `updateSubmission(id, data)` with the merged record already computed by
the caller (the only caller passes `{...submission, status}` built from the
same stored record, so the method's own merge yields exactly that record). -/
def updateSubmission (st : State) (id : Nat) (updatedSubmission : Submission) :
    Option (Submission × State) :=
  match getSubmission st id with
  | none => none
  | some _ =>
      some (updatedSubmission,
        { st with submissions :=
            st.submissions.map (fun s => if s.id == id then updatedSubmission else s) })

def getAllSubmissions (st : State) : List Submission :=
  st.submissions

def getSubmissionsByTrainee (st : State) (traineeId : Nat) : List Submission :=
  st.submissions.filter (fun submission => submission.traineeId == traineeId)

def getSubmissionsByAssessor (st : State) (assessorId : Nat) : List Submission :=
  let assignments := getAssignmentsByAssessor st assessorId
  let assignedTraineeUnitPairs := assignments.map (fun a => (a.traineeId, a.unitId))
  st.submissions.filter (fun submission =>
    assignedTraineeUnitPairs.any (fun pair =>
      pair.1 == some submission.traineeId && pair.2 == submission.unitId))

/-! ===== SubmissionFile ===== -/

def createSubmissionFile (st : State) (now : Int) (insertFile : InsertSubmissionFile) :
    SubmissionFile × State :=
  let id := st.submissionFileIdCounter
  let file : SubmissionFile :=
    { id := id
      submissionId := insertFile.submissionId
      fileName := insertFile.fileName
      fileType := insertFile.fileType
      filePath := insertFile.filePath
      fileSize := insertFile.fileSize
      uploadDate := now }
  (file, { st with submissionFiles := st.submissionFiles ++ [file],
                   submissionFileIdCounter := id + 1 })

def getSubmissionFiles (st : State) (submissionId : Nat) : List SubmissionFile :=
  st.submissionFiles.filter (fun file => file.submissionId == submissionId)

/-! ===== Assessment ===== -/

def createAssessment (st : State) (now : Int) (insertAssessment : InsertAssessment) :
    Assessment × State :=
  let id := st.assessmentIdCounter
  let assessment : Assessment :=
    { id := id
      submissionId := insertAssessment.submissionId
      assessorId := insertAssessment.assessorId
      status := insertAssessment.status
      assessmentDate := now
      criteria := insertAssessment.criteria.getD []
      feedback := insertAssessment.feedback }
  (assessment, { st with assessments := st.assessments ++ [assessment],
                         assessmentIdCounter := id + 1 })

def getAssessment (st : State) (id : Nat) : Option Assessment :=
  st.assessments.find? (fun a => a.id == id)

def getAssessmentsBySubmission (st : State) (submissionId : Nat) : List Assessment :=
  st.assessments.filter (fun assessment => assessment.submissionId == submissionId)

/-! ===== Verification ===== -/

def createVerification (st : State) (now : Int) (insertVerification : InsertVerification) :
    Verification × State :=
  let id := st.verificationIdCounter
  let verification : Verification :=
    { id := id
      assessmentId := insertVerification.assessmentId
      verifierId := insertVerification.verifierId
      verifierType := insertVerification.verifierType
      status := insertVerification.status
      verificationDate := now
      comments := insertVerification.comments }
  (verification, { st with verifications := st.verifications ++ [verification],
                           verificationIdCounter := id + 1 })

def getAllVerifications (st : State) : List Verification :=
  st.verifications

def getVerificationsByVerifier (st : State) (verifierId : Nat) : List Verification :=
  st.verifications.filter (fun verification => verification.verifierId == verifierId)

/-! ===== Notification ===== -/

def createNotification (st : State) (now : Int) (insertNotification : InsertNotification) :
    Notification × State :=
  let id := st.notificationIdCounter
  let notification : Notification :=
    { id := id
      userId := insertNotification.userId
      title := insertNotification.title
      message := insertNotification.message
      type := insertNotification.type
      createdAt := now
      isRead := false
      linkedItemId := insertNotification.linkedItemId }
  (notification, { st with notifications := st.notifications ++ [notification],
                           notificationIdCounter := id + 1 })

def getNotification (st : State) (id : Nat) : Option Notification :=
  st.notifications.find? (fun n => n.id == id)

/-- `updateNotification(id, data)` with the merged record already computed by
the caller (the only caller passes `{...notification, isRead: true}`). -/
def updateNotification (st : State) (id : Nat) (updatedNotification : Notification) :
    Option (Notification × State) :=
  match getNotification st id with
  | none => none
  | some _ =>
      some (updatedNotification,
        { st with notifications :=
            st.notifications.map (fun n => if n.id == id then updatedNotification else n) })

/-- filter by user then `.sort((a, b) => b.createdAt - a.createdAt)`:
newest-first, as a stable descending sort on createdAt. -/
def getNotificationsByUser (st : State) (userId : Nat) : List Notification :=
  (st.notifications.filter (fun notification => notification.userId == userId)).mergeSort
    (fun a b => b.createdAt ≤ a.createdAt)

/-! ===== ActivityLog ===== -/

def createActivityLog (st : State) (now : Int) (insertLog : InsertActivityLog) :
    ActivityLog × State :=
  let id := st.activityLogIdCounter
  let log : ActivityLog :=
    { id := id
      userId := insertLog.userId
      action := insertLog.action
      details := insertLog.details
      timestamp := now
      ipAddress := insertLog.ipAddress }
  (log, { st with activityLogs := st.activityLogs ++ [log],
                  activityLogIdCounter := id + 1 })

end MemStorage

/-! ===== Route layer (src/server/routes.ts) ===== -/

/-- What a route answers: the HTTP outcome classes the handlers produce.
`uploadError` is a rejection raised by the multer upload middleware before
the handler body runs. -/
inductive ApiResult where
  | created
  | ok
  | badRequest (message : String)
  | forbidden (message : String)
  | notFound (message : String)
  | uploadError (message : String)
  | serverError (message : String)
deriving Repr, DecidableEq

/-- An uploaded multipart file as multer hands it to the handler. -/
structure UploadFile where
  originalname : String
  mimetype : String
  size : Nat
  path : String
deriving Repr, DecidableEq

/-- The allow-list of the fileFilter in routes.ts. -/
def allowedTypes : List String :=
  ["application/pdf", "image/jpeg", "image/png", "video/mp4",
   "application/vnd.openxmlformats-officedocument.wordprocessingml.document"]

/-- fileFilter (routes.ts): accept exactly the allow-listed mimetypes. -/
def fileFilter (file : UploadFile) : Bool :=
  allowedTypes.contains file.mimetype

/-- Modelled from the multer contract as configured in routes.ts
(`upload = multer(storage_config, fileFilter, limits.fileSize = 20*1024*1024)`
used as `upload.array('files', 10)`): the middleware aborts the request with
the fileFilter's error for a refused mimetype, with multer's
LIMIT_FILE_SIZE error ("File too large") for a file strictly exceeding the
configured byte limit, and with its file-count error when more than 10
files arrive; otherwise it accepts all files and lets the handler run. -/
def uploadArrayCheck (files : List UploadFile) : Option String :=
  if files.length > 10 then some "Too many files"
  else go files
where
  go : List UploadFile → Option String
    | [] => none
    | file :: rest =>
      if !fileFilter file then
        some "Invalid file type. Only PDF, JPG, PNG, MP4, and DOCX are allowed."
      else if file.size > 20 * 1024 * 1024 then
        some "File too large"
      else go rest

/-! Zod enum constraints checked by validateSchema(insert*Schema): the text
enum columns of schema.ts.  All other body fields are structurally typed in
the embedding, so only the enum memberships remain to validate. -/

def submissionStatuses : List String :=
  ["pending", "reviewed", "resubmit", "approved", "rejected"]

def assessmentStatuses : List String :=
  ["approved", "resubmit", "rejected"]

def verificationStatuses : List String :=
  ["confirmed", "rejected", "flagged"]

def verifierTypes : List String :=
  ["internal", "external"]

def validInsertSubmission (body : InsertSubmission) : Bool :=
  match body.status with
  | none => true
  | some s => submissionStatuses.contains s

def validInsertAssessment (body : InsertAssessment) : Bool :=
  assessmentStatuses.contains body.status

def validInsertVerification (body : InsertVerification) : Bool :=
  verificationStatuses.contains body.status && verifierTypes.contains body.verifierType

/-- logActivity (routes.ts): fire-and-forget activity log write.  The origin
address and the shape of the details payload are not inspected by anything
verified, so details are carried as a rendered string and ipAddress as
absent. -/
def logActivity (st : State) (now : Int) (userId : Nat) (action : String)
    (details : String) : State :=
  (MemStorage.createActivityLog st now
    { userId := userId, action := action, details := details, ipAddress := none }).2

/-- Modelled from the spec: the registration operation of the authentication
subsystem (server/auth.ts is imported by routes.ts but is not under src/).
Per the requirements document, users "register and log in securely"; its
store effect is exactly MemStorage.createUser, which is in src/. -/
def registerUser (st : State) (now : Int) (body : InsertUser) : ApiResult × State :=
  let (_, st1) := MemStorage.createUser st now body
  (.created, st1)

/-- POST /api/users/deactivate/:id (routes.ts). -/
def postUsersDeactivate (st : State) (now : Int) (caller : User) (userId : Nat) :
    ApiResult × State :=
  if !(["admin"].contains caller.role) then
    (.forbidden "Forbidden: Insufficient permissions", st)
  else
    match MemStorage.getUser st userId with
    | none => (.notFound "User not found", st)
    | some user =>
      match MemStorage.updateUser st userId { user with isActive := false } with
      | none => (.serverError "Failed to deactivate user", st)
      | some (_, st1) =>
        let st2 := logActivity st1 now caller.id "deactivated_user"
          ("targetUser=" ++ toString userId)
        (.ok, st2)

/-- POST /api/units (routes.ts). -/
def postUnits (st : State) (now : Int) (caller : User) (body : InsertUnit) :
    ApiResult × State :=
  if !(["admin"].contains caller.role) then
    (.forbidden "Forbidden: Insufficient permissions", st)
  else
    let (unit, st1) := MemStorage.createUnit st body
    let st2 := logActivity st1 now caller.id "created_unit" ("unitId=" ++ toString unit.id)
    (.created, st2)

/-- POST /api/tasks (routes.ts). -/
def postTasks (st : State) (now : Int) (caller : User) (body : InsertTask) :
    ApiResult × State :=
  if !(["admin"].contains caller.role) then
    (.forbidden "Forbidden: Insufficient permissions", st)
  else
    let (task, st1) := MemStorage.createTask st body
    let st2 := logActivity st1 now caller.id "created_task" ("taskId=" ++ toString task.id)
    (.created, st2)

/-- POST /api/assignments (routes.ts). -/
def postAssignments (st : State) (now : Int) (caller : User) (body : InsertAssignment) :
    ApiResult × State :=
  if !(["admin"].contains caller.role) then
    (.forbidden "Forbidden: Insufficient permissions", st)
  else
    let (assignment, st1) := MemStorage.createAssignment st now body
    let (_, st2) := MemStorage.createNotification st1 now
      { userId := assignment.assessorId
        title := "New Trainee Assigned"
        message := "You have been assigned to a new trainee for Unit " ++
          toString assignment.unitId
        isRead := false
        type := "system"
        linkedItemId := some assignment.id }
    let st3 := logActivity st2 now caller.id "created_assignment"
      ("assignmentId=" ++ toString assignment.id)
    (.created, st3)

/-- The `for (const file of files)` loop of POST /api/submissions: persist
each uploaded file against the created submission. -/
def storeFiles (st : State) (now : Int) (submissionId : Nat) (files : List UploadFile) :
    State :=
  files.foldl (fun acc file =>
    (MemStorage.createSubmissionFile acc now
      { submissionId := submissionId
        fileName := file.originalname
        fileType := file.mimetype
        filePath := file.path
        fileSize := file.size }).2) st

/-- The `for (const verifier of verifiers)` fan-out loops of routes.ts:
create one notification per listed user. -/
def notifyEach (st : State) (now : Int) (users : List User)
    (f : User → InsertNotification) : State :=
  users.foldl (fun acc verifier => (MemStorage.createNotification acc now (f verifier)).2) st

/-- POST /api/submissions (routes.ts): requireRole(['trainee']), then the
multer upload middleware, then the handler (validate submission data,
create the Submission, persist each uploaded file, notify the assigned
assessor when an Assignment for this trainee and unit exists, log). -/
def postSubmissions (st : State) (now : Int) (caller : User) (files : List UploadFile)
    (submissionData : InsertSubmission) : ApiResult × State :=
  if !(["trainee"].contains caller.role) then
    (.forbidden "Forbidden: Insufficient permissions", st)
  else
    match uploadArrayCheck files with
    | some e => (.uploadError e, st)
    | none =>
      if !(validInsertSubmission { submissionData with traineeId := caller.id }) then
        (.badRequest "Validation error", st)
      else
        let (submission, st1) := MemStorage.createSubmission st now
          { submissionData with traineeId := caller.id, status := some "pending" }
        let st2 := storeFiles st1 now submission.id files
        let assignments := MemStorage.getAssignmentsByTrainee st2 caller.id
        let assignment := assignments.find? (fun a => a.unitId == submission.unitId)
        let st3 :=
          match assignment with
          | some assignment =>
            (MemStorage.createNotification st2 now
              { userId := assignment.assessorId
                title := "New Submission Received"
                message := "A new submission for " ++ submission.title ++
                  " has been received and requires your review"
                isRead := false
                type := "submission"
                linkedItemId := some submission.id }).2
          | none => st2
        let st4 := logActivity st3 now caller.id "created_submission"
          ("submissionId=" ++ toString submission.id)
        (.created, st4)

/-- POST /api/assessments (routes.ts): requireRole(['assessor']),
validateSchema(insertAssessmentSchema), then the handler. -/
def postAssessments (st : State) (now : Int) (caller : User) (body : InsertAssessment) :
    ApiResult × State :=
  if !(["assessor"].contains caller.role) then
    (.forbidden "Forbidden: Insufficient permissions", st)
  else if !(validInsertAssessment body) then
    (.badRequest "Validation error", st)
  else
    match MemStorage.getSubmission st body.submissionId with
    | none => (.notFound "Submission not found", st)
    | some submission =>
      let assignments := MemStorage.getAssignmentsByAssessor st caller.id
      let isAssigned := assignments.any (fun a =>
        a.traineeId == some submission.traineeId && a.unitId == submission.unitId)
      if !isAssigned then
        (.forbidden "Forbidden: You are not assigned to this trainee", st)
      else
        let (assessment, st1) := MemStorage.createAssessment st now
          { body with assessorId := caller.id }
        let newStatus :=
          if body.status == "approved" then "approved"
          else if body.status == "rejected" then "rejected"
          else "resubmit"
        match MemStorage.updateSubmission st1 body.submissionId
            { submission with status := newStatus } with
        | none => (.serverError "Failed to create assessment", st1)
        | some (_, st2) =>
          let (_, st3) := MemStorage.createNotification st2 now
            { userId := submission.traineeId
              title := "Assessment Feedback Available"
              message := "Your submission for " ++ submission.title ++ " has been assessed"
              isRead := false
              type := "assessment"
              linkedItemId := some assessment.id }
          let st4 :=
            if body.status == "approved" then
              notifyEach st3 now (MemStorage.getUsersByRole st3 "internal_verifier")
                (fun verifier =>
                  { userId := verifier.id
                    title := "Verification Required"
                    message := "A new assessment needs verification"
                    isRead := false
                    type := "verification"
                    linkedItemId := some assessment.id })
            else st3
          let st5 := logActivity st4 now caller.id "created_assessment"
            ("assessmentId=" ++ toString assessment.id)
          (.created, st5)

/-- POST /api/verifications (routes.ts): requireRole(internal/external
verifier), validateSchema(insertVerificationSchema), then the handler.
Note the source order: the Verification record is created BEFORE the
referenced Assessment (and its Submission) are looked up, so the NotFound
answers leave the already-written Verification in the store. -/
def postVerifications (st : State) (now : Int) (caller : User) (body : InsertVerification) :
    ApiResult × State :=
  if !(["internal_verifier", "external_verifier"].contains caller.role) then
    (.forbidden "Forbidden: Insufficient permissions", st)
  else if !(validInsertVerification body) then
    (.badRequest "Validation error", st)
  else
    let (verification, st1) := MemStorage.createVerification st now
      { body with
          verifierId := caller.id
          verifierType := if caller.role == "internal_verifier" then "internal" else "external" }
    match MemStorage.getAssessment st1 body.assessmentId with
    | none => (.notFound "Assessment not found", st1)
    | some assessment =>
      match MemStorage.getSubmission st1 assessment.submissionId with
      | none => (.notFound "Submission not found", st1)
      | some submission =>
        let (_, st2) := MemStorage.createNotification st1 now
          { userId := assessment.assessorId
            title := "Verification Completed"
            message := "Your assessment has been verified"
            isRead := false
            type := "verification"
            linkedItemId := some verification.id }
        let st3 :=
          if body.status == "rejected" then
            (MemStorage.createNotification st2 now
              { userId := submission.traineeId
                title := "Assessment Verification Issue"
                message := "There was an issue with your assessment verification"
                isRead := false
                type := "verification"
                linkedItemId := some verification.id }).2
          else st2
        let st4 :=
          if body.status == "confirmed" && caller.role == "internal_verifier" then
            notifyEach st3 now (MemStorage.getUsersByRole st3 "external_verifier")
              (fun verifier =>
                { userId := verifier.id
                  title := "External Verification Required"
                  message := "An assessment is ready for external verification"
                  isRead := false
                  type := "verification"
                  linkedItemId := some verification.id })
          else st3
        let st5 := logActivity st4 now caller.id "created_verification"
          ("verificationId=" ++ toString verification.id)
        (.created, st5)

/-- POST /api/notifications/:id/read (routes.ts). -/
def postNotificationRead (st : State) (now : Int) (caller : User) (notificationId : Nat) :
    ApiResult × State :=
  match MemStorage.getNotification st notificationId with
  | none => (.notFound "Notification not found", st)
  | some notification =>
    if notification.userId != caller.id then
      (.forbidden "Forbidden: You can only mark your own notifications as read", st)
    else
      match MemStorage.updateNotification st notificationId
          { notification with isRead := true } with
      | none => (.serverError "Failed to mark notification as read", st)
      | some (_, st1) => (.ok, st1)

/-- The notifications a request appended: the store only appends
notification records (updates replace in place), so with unchanged length
prefix the freshly created ones are the suffix past the old length. -/
def addedNotifications (pre post : State) : List Notification :=
  post.notifications.drop pre.notifications.length

/-! ===== The mutating API surface as an event system ===== -/

/-- One authenticated mutating API request.  `register`, and the plain admin
creations of the organizational hierarchy (departments, study levels,
courses, class intakes, modules), are served by code outside src/ (auth.ts
and admin tooling); their store effect is the corresponding MemStorage
create, which is in src/.  Every event carries the clock value its request
observed. -/
inductive Event where
  | register (now : Int) (body : InsertUser)
  | departmentCreate (caller : User) (body : InsertDepartment)
  | studyLevelCreate (caller : User) (body : InsertStudyLevel)
  | courseCreate (caller : User) (body : InsertCourse)
  | classIntakeCreate (caller : User) (body : InsertClassIntake)
  | moduleCreate (caller : User) (body : InsertModule)
  | deactivateUser (now : Int) (caller : User) (userId : Nat)
  | unitCreate (now : Int) (caller : User) (body : InsertUnit)
  | taskCreate (now : Int) (caller : User) (body : InsertTask)
  | assignmentCreate (now : Int) (caller : User) (body : InsertAssignment)
  | submissionCreate (now : Int) (caller : User) (files : List UploadFile)
      (body : InsertSubmission)
  | assessmentCreate (now : Int) (caller : User) (body : InsertAssessment)
  | verificationCreate (now : Int) (caller : User) (body : InsertVerification)
  | notificationRead (now : Int) (caller : User) (notificationId : Nat)
deriving Repr

/-- The store state an event leaves behind. -/
def applyEvent (st : State) : Event → State
  | .register now body => (registerUser st now body).2
  | .departmentCreate _ body => (MemStorage.createDepartment st body).2
  | .studyLevelCreate _ body => (MemStorage.createStudyLevel st body).2
  | .courseCreate _ body => (MemStorage.createCourse st body).2
  | .classIntakeCreate _ body => (MemStorage.createClassIntake st body).2
  | .moduleCreate _ body => (MemStorage.createModule st body).2
  | .deactivateUser now caller userId => (postUsersDeactivate st now caller userId).2
  | .unitCreate now caller body => (postUnits st now caller body).2
  | .taskCreate now caller body => (postTasks st now caller body).2
  | .assignmentCreate now caller body => (postAssignments st now caller body).2
  | .submissionCreate now caller files body => (postSubmissions st now caller files body).2
  | .assessmentCreate now caller body => (postAssessments st now caller body).2
  | .verificationCreate now caller body => (postVerifications st now caller body).2
  | .notificationRead now caller notificationId =>
      (postNotificationRead st now caller notificationId).2

/-- Running a request trace. A state is reachable through the API when it is
`runEvents s0 events` for the initial store s0 and some trace. -/
def runEvents (s0 : State) (events : List Event) : State :=
  events.foldl applyEvent s0

/-! ===== Derived forms used by the statements and proofs ===== -/

/-- The notification records a notifyEach loop starting at counter value `c`
creates, in order (each is the record MemStorage.createNotification builds). -/
def notifBatch (now : Int) (f : User → InsertNotification) : Nat → List User → List Notification
  | _, [] => []
  | c, v :: vs =>
    { id := c
      userId := (f v).userId
      title := (f v).title
      message := (f v).message
      isRead := false
      createdAt := now
      type := (f v).type
      linkedItemId := (f v).linkedItemId } :: notifBatch now f (c + 1) vs

/-- The submission-file records a storeFiles loop starting at counter value
`c` creates, in order. -/
def fileBatch (now : Int) (submissionId : Nat) : Nat → List UploadFile → List SubmissionFile
  | _, [] => []
  | c, file :: rest =>
    { id := c
      submissionId := submissionId
      fileName := file.originalname
      fileType := file.mimetype
      filePath := file.path
      fileSize := file.size
      uploadDate := now } :: fileBatch now submissionId (c + 1) rest

/-- Creating a sequence of courses, collecting the created records. -/
def createCourses (st : State) : List InsertCourse → List Course × State
  | [] => ([], st)
  | p :: ps =>
    let (c, st') := MemStorage.createCourse st p
    let (cs, st'') := createCourses st' ps
    (c :: cs, st'')

/-- Creating a sequence of class intakes, collecting the created records. -/
def createClassIntakes (st : State) : List InsertClassIntake → List ClassIntake × State
  | [] => ([], st)
  | p :: ps =>
    let (c, st') := MemStorage.createClassIntake st p
    let (cs, st'') := createClassIntakes st' ps
    (c :: cs, st'')

/-- Creating a sequence of modules, collecting the created records. -/
def createModules (st : State) : List InsertModule → List Module × State
  | [] => ([], st)
  | p :: ps =>
    let (c, st') := MemStorage.createModule st p
    let (cs, st'') := createModules st' ps
    (c :: cs, st'')

/-- The most recently created Assessment referencing a submission: the store
appends creations in id order, so it is the last matching record. -/
def latestAssessmentFor (st : State) (submissionId : Nat) : Option Assessment :=
  (MemStorage.getAssessmentsBySubmission st submissionId).getLast?

/-- The status the workflow invariant demands of a submission: the latest
assessment's status, or "pending" when no assessment references it. -/
def statusFromLatest (st : State) (submissionId : Nat) : String :=
  match latestAssessmentFor st submissionId with
  | some a => a.status
  | none => "pending"

/-- The inductive invariant carried through every API event: submission ids
are fresh and duplicate-free, assessments reference already-allocated
submission ids, and every submission's status mirrors its most recently
created assessment (or is "pending" without one). -/
structure Inv (st : State) : Prop where
  subIdsLt : ∀ sub ∈ st.submissions, sub.id < st.submissionIdCounter
  subIdsNodup : (st.submissions.map (fun s => s.id)).Nodup
  assessRefsLt : ∀ a ∈ st.assessments, a.submissionId < st.submissionIdCounter
  statusMirrors : ∀ sub ∈ st.submissions, sub.status = statusFromLatest st sub.id

/-! ===== Reporting (storage.ts, getTraineePerformanceReport) ===== -/

/-- The report row interface TraineePerformance (storage.ts).  averageTurnaround
is fractional days; the JS float arithmetic is carried exactly in Rat. -/
structure TraineePerformance where
  traineeId : Nat
  traineeName : String
  submissionsCount : Nat
  approvedCount : Nat
  rejectedCount : Nat
  resubmitCount : Nat
  pendingCount : Nat
  averageTurnaround : Rat
deriving Repr, DecidableEq

/-- The mutable accumulators of getTraineePerformanceReport's per-trainee loop. -/
structure PerfAcc where
  approvedCount : Nat
  rejectedCount : Nat
  resubmitCount : Nat
  pendingCount : Nat
  totalTurnaround : Rat
  assessedCount : Nat
deriving Repr, DecidableEq

/-- The `switch (submission.status)` of the per-trainee loop: bump the
matching status counter. -/
def perfCount (acc : PerfAcc) (submission : Submission) : PerfAcc :=
  if submission.status = "approved" then { acc with approvedCount := acc.approvedCount + 1 }
  else if submission.status = "rejected" then { acc with rejectedCount := acc.rejectedCount + 1 }
  else if submission.status = "resubmit" then { acc with resubmitCount := acc.resubmitCount + 1 }
  else if submission.status = "pending" then { acc with pendingCount := acc.pendingCount + 1 }
  else acc

/-- One iteration of the per-trainee loop body: count the status, then —
when the submission has assessments — add the first assessment's turnaround
in days and bump assessedCount. -/
def perfStep (st : State) (acc : PerfAcc) (submission : Submission) : PerfAcc :=
  let acc := perfCount acc submission
  match (MemStorage.getAssessmentsBySubmission st submission.id).head? with
  | some assessment =>
    { acc with
        totalTurnaround := acc.totalTurnaround +
          ((assessment.assessmentDate - submission.submissionDate : Int) : Rat) /
            (1000 * 60 * 60 * 24)
        assessedCount := acc.assessedCount + 1 }
  | none => acc

/-- The body of getTraineePerformanceReport's `for (const trainee of ...)`
loop: count submissions per status and accumulate first-assessment
turnarounds, then divide (0 when no submission was assessed). -/
def traineePerformanceFor (st : State) (trainee : User) : TraineePerformance :=
  let submissions := MemStorage.getSubmissionsByTrainee st trainee.id
  let acc := submissions.foldl (perfStep st)
    { approvedCount := 0, rejectedCount := 0, resubmitCount := 0, pendingCount := 0,
      totalTurnaround := 0, assessedCount := 0 }
  { traineeId := trainee.id
    traineeName := trainee.fullName
    submissionsCount := submissions.length
    approvedCount := acc.approvedCount
    rejectedCount := acc.rejectedCount
    resubmitCount := acc.resubmitCount
    pendingCount := acc.pendingCount
    averageTurnaround :=
      if acc.assessedCount > 0 then acc.totalTurnaround / (acc.assessedCount : Rat) else 0 }

/-- MemStorage.getTraineePerformanceReport (storage.ts): resolve the trainee
set (the given ids when nonempty, else all users with role trainee, dropping
unresolved ids), then build one row per trainee. -/
def getTraineePerformanceReport (st : State) (specificTraineeIds : List Nat) :
    List TraineePerformance :=
  let trainees :=
    if specificTraineeIds.length ≠ 0 then
      (specificTraineeIds.map (MemStorage.getUser st)).reduceOption
    else MemStorage.getUsersByRole st "trainee"
  trainees.map (traineePerformanceFor st)

/-- Spec-side definition (spec section 4.4): the turnaround, in days, of each
assessed submission of a trainee, using only the submission's first
Assessment. -/
def firstAssessmentTurnarounds (st : State) (traineeId : Nat) : List Rat :=
  (MemStorage.getSubmissionsByTrainee st traineeId).filterMap (fun submission =>
    (MemStorage.getAssessmentsBySubmission st submission.id).head?.map (fun assessment =>
      ((assessment.assessmentDate - submission.submissionDate : Int) : Rat) /
        (1000 * 60 * 60 * 24)))

/-- Spec-side definition: mean turnaround, 0 when no submission is assessed. -/
def specAverageTurnaround (st : State) (traineeId : Nat) : Rat :=
  let l := firstAssessmentTurnarounds st traineeId
  if l.length = 0 then 0 else l.sum / (l.length : Rat)

/-! ===== Concrete fixtures for witnesses and counterexamples ===== -/

/-- A trainee account. -/
def traineeUser : User :=
  { id := 1, username := "trainee1", password := "pw", fullName := "Trainee One"
    email := "t1@example.com", role := "trainee", departmentId := none, courseId := none
    classIntakeId := none, createdAt := 0, isActive := true }

/-- An assessor account. -/
def assessorUser : User :=
  { id := 2, username := "assessor1", password := "pw", fullName := "Assessor One"
    email := "a1@example.com", role := "assessor", departmentId := none, courseId := none
    classIntakeId := none, createdAt := 0, isActive := true }

/-- An internal verifier account. -/
def ivUser : User :=
  { id := 3, username := "iv1", password := "pw", fullName := "Internal Verifier One"
    email := "iv1@example.com", role := "internal_verifier", departmentId := none
    courseId := none, classIntakeId := none, createdAt := 0, isActive := true }

/-- An external verifier account. -/
def evUser : User :=
  { id := 4, username := "ev1", password := "pw", fullName := "External Verifier One"
    email := "ev1@example.com", role := "external_verifier", departmentId := none
    courseId := none, classIntakeId := none, createdAt := 0, isActive := true }

/-- The user base shared by the concrete scenarios. -/
def baseState : State :=
  { emptyState with
      users := [traineeUser, assessorUser, ivUser, evUser]
      userIdCounter := 5 }

/-- A pending submission by traineeUser for unit 7, task 9. -/
def sub1 : Submission :=
  { id := 1, traineeId := traineeUser.id, taskId := 9, unitId := 7, title := "Evidence 1"
    description := none, submissionDate := 100, status := "pending" }

/-- baseState with sub1 on file. -/
def stateWithSub : State :=
  { baseState with submissions := [sub1], submissionIdCounter := 2 }

/-- An assessment of sub1 by assessorUser. -/
def assess1 : Assessment :=
  { id := 1, submissionId := sub1.id, assessorId := assessorUser.id, feedback := none
    criteria := [], status := "approved", assessmentDate := 200 }

/-- stateWithSub with sub1 approved by assess1 (as the workflow leaves it). -/
def stateWithAssessment : State :=
  { stateWithSub with
      submissions := [{ sub1 with status := "approved" }]
      assessments := [assess1]
      assessmentIdCounter := 2 }

/-- An administrator account (caller of admin-only requests). -/
def adminUser : User :=
  { id := 9, username := "admin", password := "pw", fullName := "Administrator"
    email := "admin@example.com", role := "admin", departmentId := none, courseId := none
    classIntakeId := none, createdAt := 0, isActive := true }

/-- A verification request body whose assessmentId references no Assessment. -/
def verifBodyDangling : InsertVerification :=
  { assessmentId := 42, verifierId := 0, verifierType := "internal"
    status := "confirmed", comments := none }

/-- A verification request body for assess1. -/
def verifBody1 : InsertVerification :=
  { assessmentId := 1, verifierId := 0, verifierType := "internal"
    status := "confirmed", comments := none }

/-- An assessment request body approving sub1. -/
def assessBody : InsertAssessment :=
  { submissionId := 1, assessorId := 0, feedback := none, criteria := none
    status := "approved" }

/-- A submission request body for unit 7, task 9 (traineeId is overridden by
the handler with the caller's id). -/
def submissionBody : InsertSubmission :=
  { traineeId := 0, taskId := 9, unitId := 7, title := "Evidence 1"
    description := none, status := none }

/-- A request trace: register the trainee and the assessor, assign the
assessor to the trainee for unit 7, submit, approve. -/
def c2Trace : List Event :=
  [ Event.register 0 ⟨"trainee1", "pw", "Trainee One", "t1@example.com", "trainee", none, none, none, some true⟩,
    Event.register 1 ⟨"assessor1", "pw", "Assessor One", "a1@example.com", "assessor", none, none, none, some true⟩,
    Event.assignmentCreate 2 adminUser ⟨1, 2, 7, some 1⟩,
    Event.submissionCreate 3 traineeUser [] submissionBody,
    Event.assessmentCreate 4 assessorUser assessBody ]

/-- stateWithSub plus an Assignment linking assessorUser to traineeUser for
unit 7. -/
def c4State : State :=
  { stateWithSub with
      assignments := [⟨1, 1, assessorUser.id, 7, some traineeUser.id, 0⟩]
      assignmentIdCounter := 2 }

/-- An unread notification addressed to traineeUser. -/
def notif1 : Notification :=
  { id := 1, userId := traineeUser.id, title := "Assessment Feedback Available"
    message := "Your submission for Evidence 1 has been assessed", isRead := false
    createdAt := 60, type := "assessment", linkedItemId := some 1 }

/-- baseState with notif1 on file. -/
def notifState : State :=
  { baseState with notifications := [notif1], notificationIdCounter := 2 }

/-- An allow-listed file of exactly 20 MiB. -/
def file20 : UploadFile :=
  { originalname := "evidence.pdf", mimetype := "application/pdf"
    size := 20 * 1024 * 1024, path := "uploads/1-evidence.pdf" }

/-- An allow-listed file one byte over 20 MiB. -/
def file20plus : UploadFile :=
  { originalname := "evidence.pdf", mimetype := "application/pdf"
    size := 20 * 1024 * 1024 + 1, path := "uploads/2-evidence.pdf" }

/-- Course payloads under department 1. -/
def c9CoursePs : List InsertCourse :=
  [ ⟨"Software Development", "SD101", 1, 1, none⟩,
    ⟨"Network Administration", "NA101", 1, 1, none⟩ ]

/-- Class intake payloads under course 1. -/
def c9IntakePs : List InsertClassIntake :=
  [ ⟨"Intake 2023", 1, "2023-01-15", "2024-12-15"⟩ ]

/-- Module payloads under course 1. -/
def c9ModulePs : List InsertModule :=
  [ ⟨"Programming Fundamentals", "PRG101", none, 1⟩,
    ⟨"Database Systems", "DB101", none, 1⟩ ]

/-! ===== Helper lemmas about the loops ===== -/

theorem notifyEach_eq (now : Int) (f : User → InsertNotification) :
    ∀ (users : List User) (st : State),
      notifyEach st now users f =
        { st with
            notifications :=
              st.notifications ++ notifBatch now f st.notificationIdCounter users
            notificationIdCounter := st.notificationIdCounter + users.length } := by
  intro users
  induction users with
  | nil => intro st; simp [notifyEach, notifBatch]
  | cons v vs ih =>
    intro st
    have h1 : notifyEach st now (v :: vs) f =
        notifyEach ((MemStorage.createNotification st now (f v)).2) now vs f := rfl
    rw [h1, ih]
    simp [MemStorage.createNotification, notifBatch]
    omega

theorem notifBatch_isRead (now : Int) (f : User → InsertNotification) :
    ∀ (users : List User) (c : Nat), ∀ n ∈ notifBatch now f c users, n.isRead = false := by
  intro users
  induction users with
  | nil => intro c n hn; simp [notifBatch] at hn
  | cons v vs ih =>
    intro c n hn
    simp only [notifBatch, List.mem_cons] at hn
    rcases hn with h | h
    · subst h; rfl
    · exact ih (c + 1) n h

theorem notifBatch_mem (now : Int) (f : User → InsertNotification) {v : User} :
    ∀ (users : List User), v ∈ users → ∀ (c : Nat),
      ∃ n ∈ notifBatch now f c users,
        n.userId = (f v).userId ∧ n.type = (f v).type ∧ n.isRead = false ∧
        n.linkedItemId = (f v).linkedItemId := by
  intro users
  induction users with
  | nil => intro h; cases h
  | cons w ws ih =>
    intro hmem c
    rcases List.mem_cons.mp hmem with h | h
    · subst h
      refine ⟨_, List.mem_cons_self _ _, rfl, rfl, rfl, rfl⟩
    · obtain ⟨n, hn, hprops⟩ := ih h (c + 1)
      exact ⟨n, List.mem_cons_of_mem _ hn, hprops⟩

theorem storeFiles_eq (now : Int) (submissionId : Nat) :
    ∀ (files : List UploadFile) (st : State),
      storeFiles st now submissionId files =
        { st with
            submissionFiles :=
              st.submissionFiles ++ fileBatch now submissionId st.submissionFileIdCounter files
            submissionFileIdCounter := st.submissionFileIdCounter + files.length } := by
  intro files
  induction files with
  | nil => intro st; simp [storeFiles, fileBatch]
  | cons file rest ih =>
    intro st
    have h1 : storeFiles st now submissionId (file :: rest) =
        storeFiles ((MemStorage.createSubmissionFile st now
          { submissionId := submissionId
            fileName := file.originalname
            fileType := file.mimetype
            filePath := file.path
            fileSize := file.size }).2) now submissionId rest := rfl
    rw [h1, ih]
    simp [MemStorage.createSubmissionFile, fileBatch]
    omega

/-! ===== Per-handler state shape lemmas ===== -/

/-- Fields a request does not rewrite: the projections the workflow
invariant and the notification analysis read. -/
def PreservesCore (st out : State) : Prop :=
  out.submissions = st.submissions ∧ out.assessments = st.assessments ∧
  out.submissionIdCounter = st.submissionIdCounter ∧ out.notifications = st.notifications

theorem registerUser_preserves (st : State) (now : Int) (body : InsertUser) :
    PreservesCore st (registerUser st now body).2 :=
  ⟨rfl, rfl, rfl, rfl⟩

theorem createDepartment_preserves (st : State) (body : InsertDepartment) :
    PreservesCore st (MemStorage.createDepartment st body).2 :=
  ⟨rfl, rfl, rfl, rfl⟩

theorem createStudyLevel_preserves (st : State) (body : InsertStudyLevel) :
    PreservesCore st (MemStorage.createStudyLevel st body).2 :=
  ⟨rfl, rfl, rfl, rfl⟩

theorem createCourse_preserves (st : State) (body : InsertCourse) :
    PreservesCore st (MemStorage.createCourse st body).2 :=
  ⟨rfl, rfl, rfl, rfl⟩

theorem createClassIntake_preserves (st : State) (body : InsertClassIntake) :
    PreservesCore st (MemStorage.createClassIntake st body).2 :=
  ⟨rfl, rfl, rfl, rfl⟩

theorem createModule_preserves (st : State) (body : InsertModule) :
    PreservesCore st (MemStorage.createModule st body).2 :=
  ⟨rfl, rfl, rfl, rfl⟩

theorem postUsersDeactivate_preserves (st : State) (now : Int) (caller : User) (userId : Nat) :
    PreservesCore st (postUsersDeactivate st now caller userId).2 := by
  by_cases hr : caller.role = "admin"
  · cases hg : MemStorage.getUser st userId with
    | none => simp [PreservesCore, postUsersDeactivate, hr, hg]
    | some user =>
      simp [PreservesCore, postUsersDeactivate, hr, hg, MemStorage.updateUser,
        logActivity, MemStorage.createActivityLog]
  · simp [PreservesCore, postUsersDeactivate, hr]

theorem postUnits_preserves (st : State) (now : Int) (caller : User) (body : InsertUnit) :
    PreservesCore st (postUnits st now caller body).2 := by
  by_cases hr : caller.role = "admin"
  · simp [PreservesCore, postUnits, hr, MemStorage.createUnit, logActivity,
      MemStorage.createActivityLog]
  · simp [PreservesCore, postUnits, hr]

theorem postTasks_preserves (st : State) (now : Int) (caller : User) (body : InsertTask) :
    PreservesCore st (postTasks st now caller body).2 := by
  by_cases hr : caller.role = "admin"
  · simp [PreservesCore, postTasks, hr, MemStorage.createTask, logActivity,
      MemStorage.createActivityLog]
  · simp [PreservesCore, postTasks, hr]

theorem postAssignments_shape (st : State) (now : Int) (caller : User)
    (body : InsertAssignment) :
    (postAssignments st now caller body).2.submissions = st.submissions ∧
    (postAssignments st now caller body).2.assessments = st.assessments ∧
    (postAssignments st now caller body).2.submissionIdCounter = st.submissionIdCounter ∧
    ∃ ns, (postAssignments st now caller body).2.notifications = st.notifications ++ ns ∧
      ∀ n ∈ ns, n.isRead = false := by
  by_cases hr : caller.role = "admin"
  · simp only [postAssignments, MemStorage.createAssignment, MemStorage.createNotification,
      logActivity, MemStorage.createActivityLog, hr]
    refine ⟨?_, ?_, ?_, ?_⟩ <;> simp
  · simp [postAssignments, hr]

theorem postNotificationRead_state (st : State) (now : Int) (caller : User) (nid : Nat) :
    (postNotificationRead st now caller nid).2.submissions = st.submissions ∧
    (postNotificationRead st now caller nid).2.assessments = st.assessments ∧
    (postNotificationRead st now caller nid).2.submissionIdCounter = st.submissionIdCounter ∧
    ((postNotificationRead st now caller nid).2.notifications = st.notifications ∨
      ∃ n, MemStorage.getNotification st nid = some n ∧ n.userId = caller.id ∧
        (postNotificationRead st now caller nid).2.notifications =
          st.notifications.map (fun m => if m.id == nid then { n with isRead := true } else m)) := by
  cases hg : MemStorage.getNotification st nid with
  | none => simp [postNotificationRead, hg]
  | some n =>
    by_cases hu : n.userId = caller.id
    · refine ⟨?_, ?_, ?_, Or.inr ⟨n, rfl, hu, ?_⟩⟩ <;>
        simp [postNotificationRead, hg, hu, MemStorage.updateNotification]
    · simp [postNotificationRead, hg, hu]

theorem postVerifications_authorized_shape (st : State) (now : Int) (caller : User)
    (body : InsertVerification)
    (hd : caller.role = "internal_verifier" ∨ caller.role = "external_verifier") :
    (postVerifications st now caller body).2.submissions = st.submissions ∧
    (postVerifications st now caller body).2.assessments = st.assessments ∧
    (postVerifications st now caller body).2.submissionIdCounter = st.submissionIdCounter ∧
    ∃ ns, (postVerifications st now caller body).2.notifications = st.notifications ++ ns ∧
      ∀ n ∈ ns, n.isRead = false := by
  have hcontains : (["internal_verifier", "external_verifier"].contains caller.role) = true := by
    rcases hd with h | h <;> simp [h]
  cases hv : validInsertVerification body with
  | false => rcases hd with h | h <;> simp [postVerifications, hv, h]
  | true =>
    simp only [postVerifications, hcontains, hv, Bool.not_true, Bool.false_eq_true,
      if_false, if_true, MemStorage.createVerification, MemStorage.getAssessment,
      MemStorage.getSubmission]
    cases ha : st.assessments.find? (fun a => a.id == body.assessmentId) with
    | none => simp [ha]
    | some assessment =>
      simp only [ha]
      cases hs : st.submissions.find? (fun s => s.id == assessment.submissionId) with
      | none => simp [hs]
      | some submission =>
        simp only [hs]
        cases hrej : body.status == "rejected" with
        | true =>
          cases hcv : (body.status == "confirmed" && caller.role == "internal_verifier") with
          | true =>
            refine ⟨by simp [notifyEach_eq, MemStorage.createNotification, logActivity,
              MemStorage.createActivityLog, hrej, hcv],
              by simp [notifyEach_eq, MemStorage.createNotification, logActivity,
                MemStorage.createActivityLog, hrej, hcv],
              by simp [notifyEach_eq, MemStorage.createNotification, logActivity,
                MemStorage.createActivityLog, hrej, hcv], ?_⟩
            simp only [notifyEach_eq, MemStorage.createNotification, logActivity,
              MemStorage.createActivityLog, hrej, hcv, if_true, List.append_assoc,
              List.singleton_append]
            refine ⟨_, rfl, ?_⟩
            intro n hn
            simp at hn
            rcases hn with rfl | rfl | h
            · rfl
            · rfl
            · exact notifBatch_isRead _ _ _ _ n h
          | false =>
            refine ⟨by simp [MemStorage.createNotification, logActivity,
              MemStorage.createActivityLog, hrej, hcv],
              by simp [MemStorage.createNotification, logActivity,
                MemStorage.createActivityLog, hrej, hcv],
              by simp [MemStorage.createNotification, logActivity,
                MemStorage.createActivityLog, hrej, hcv], ?_⟩
            simp only [MemStorage.createNotification, logActivity,
              MemStorage.createActivityLog, hrej, hcv, Bool.false_eq_true, if_false,
              List.append_assoc, List.singleton_append]
            refine ⟨_, rfl, ?_⟩
            intro n hn
            simp at hn
            rcases hn with rfl | rfl
            · rfl
            · rfl
        | false =>
          cases hcv : (body.status == "confirmed" && caller.role == "internal_verifier") with
          | true =>
            refine ⟨by simp [notifyEach_eq, MemStorage.createNotification, logActivity,
              MemStorage.createActivityLog, hrej, hcv],
              by simp [notifyEach_eq, MemStorage.createNotification, logActivity,
                MemStorage.createActivityLog, hrej, hcv],
              by simp [notifyEach_eq, MemStorage.createNotification, logActivity,
                MemStorage.createActivityLog, hrej, hcv], ?_⟩
            simp only [notifyEach_eq, MemStorage.createNotification, logActivity,
              MemStorage.createActivityLog, hrej, hcv, Bool.false_eq_true, if_false,
              if_true, List.append_assoc, List.singleton_append]
            refine ⟨_, rfl, ?_⟩
            intro n hn
            simp at hn
            rcases hn with rfl | h
            · rfl
            · exact notifBatch_isRead _ _ _ _ n h
          | false =>
            refine ⟨by simp [MemStorage.createNotification, logActivity,
              MemStorage.createActivityLog, hrej, hcv],
              by simp [MemStorage.createNotification, logActivity,
                MemStorage.createActivityLog, hrej, hcv],
              by simp [MemStorage.createNotification, logActivity,
                MemStorage.createActivityLog, hrej, hcv], ?_⟩
            simp only [MemStorage.createNotification, logActivity,
              MemStorage.createActivityLog, hrej, hcv, Bool.false_eq_true, if_false,
              List.append_assoc, List.singleton_append]
            refine ⟨_, rfl, ?_⟩
            intro n hn
            simp at hn
            subst hn; rfl

theorem postSubmissions_state (st : State) (now : Int) (caller : User)
    (files : List UploadFile) (body : InsertSubmission) :
    ((postSubmissions st now caller files body).2.submissions = st.submissions ∧
     (postSubmissions st now caller files body).2.assessments = st.assessments ∧
     (postSubmissions st now caller files body).2.submissionIdCounter = st.submissionIdCounter ∧
     (postSubmissions st now caller files body).2.notifications = st.notifications) ∨
    ((postSubmissions st now caller files body).2.submissions =
       st.submissions ++ [(MemStorage.createSubmission st now
         { body with traineeId := caller.id, status := some "pending" }).1] ∧
     (postSubmissions st now caller files body).2.assessments = st.assessments ∧
     (postSubmissions st now caller files body).2.submissionIdCounter =
       st.submissionIdCounter + 1 ∧
     ∃ ns, (postSubmissions st now caller files body).2.notifications =
         st.notifications ++ ns ∧
       ∀ n ∈ ns, n.isRead = false) := by
  by_cases hr : caller.role = "trainee"
  case neg => left; simp [postSubmissions, hr]
  case pos =>
    cases hu : uploadArrayCheck files with
    | some e => left; simp [postSubmissions, hr, hu]
    | none =>
      cases hv : validInsertSubmission { body with traineeId := caller.id } with
      | false => left; simp [postSubmissions, hr, hu, hv]
      | true =>
        right
        simp only [postSubmissions, hr, hu, hv, Bool.not_true, Bool.not_false,
          Bool.false_eq_true, if_false, if_true, MemStorage.createSubmission,
          storeFiles_eq, MemStorage.getAssignmentsByTrainee, logActivity,
          MemStorage.createActivityLog]
        cases hfind : (st.assignments.filter
            (fun assignment => assignment.traineeId == some caller.id)).find?
            (fun a => a.unitId == body.unitId) with
        | none =>
          simp only [hfind]
          refine ⟨rfl, rfl, rfl, [], by simp, ?_⟩
          intro n hn
          cases hn
        | some assignment =>
          simp only [hfind, MemStorage.createNotification]
          refine ⟨rfl, rfl, rfl, _, rfl, ?_⟩
          intro n hn
          simp at hn
          subst hn
          rfl

theorem postAssessments_state (st : State) (now : Int) (caller : User)
    (body : InsertAssessment) :
    (postAssessments st now caller body).2 = st ∨
    (∃ submission, MemStorage.getSubmission st body.submissionId = some submission ∧
      validInsertAssessment body = true ∧
      (postAssessments st now caller body).2.assessments =
        st.assessments ++
          [(MemStorage.createAssessment st now { body with assessorId := caller.id }).1] ∧
      (postAssessments st now caller body).2.submissions =
        st.submissions.map (fun s =>
          if s.id == body.submissionId then
            { submission with status :=
                if body.status == "approved" then "approved"
                else if body.status == "rejected" then "rejected" else "resubmit" }
          else s) ∧
      (postAssessments st now caller body).2.submissionIdCounter = st.submissionIdCounter ∧
      ∃ ns, (postAssessments st now caller body).2.notifications = st.notifications ++ ns ∧
        ∀ n ∈ ns, n.isRead = false) := by
  by_cases hr : caller.role = "assessor"
  case neg => left; simp [postAssessments, hr]
  case pos =>
    cases hv : validInsertAssessment body with
    | false => left; simp [postAssessments, hr, hv]
    | true =>
      cases hsub : MemStorage.getSubmission st body.submissionId with
      | none => left; simp [postAssessments, hr, hv, hsub]
      | some submission =>
        cases hass : (MemStorage.getAssignmentsByAssessor st caller.id).any
            (fun a => a.traineeId == some submission.traineeId &&
              a.unitId == submission.unitId) with
        | false => left; simp [postAssessments, hr, hv, hsub, hass]
        | true =>
          right
          refine ⟨submission, rfl, rfl, ?_⟩
          simp only [MemStorage.getSubmission] at hsub
          simp only [postAssessments, hr, hv, hsub, hass, Bool.not_true, Bool.not_false,
            Bool.false_eq_true, if_false, if_true, MemStorage.createAssessment,
            MemStorage.updateSubmission, MemStorage.getSubmission, logActivity,
            MemStorage.createActivityLog, MemStorage.createNotification]
          cases happ : body.status == "approved" with
          | true =>
            simp only [happ, if_true, notifyEach_eq, MemStorage.getUsersByRole,
              MemStorage.createNotification, List.append_assoc, List.singleton_append]
            refine ⟨rfl, rfl, rfl, _, rfl, ?_⟩
            intro n hn
            simp at hn
            rcases hn with rfl | h
            · rfl
            · exact notifBatch_isRead _ _ _ _ n h
          | false =>
            simp only [happ, Bool.false_eq_true, if_false]
            refine ⟨rfl, rfl, rfl, _, rfl, ?_⟩
            intro n hn
            simp at hn
            subst hn
            rfl

theorem postVerifications_shape (st : State) (now : Int) (caller : User)
    (body : InsertVerification) :
    (postVerifications st now caller body).2.submissions = st.submissions ∧
    (postVerifications st now caller body).2.assessments = st.assessments ∧
    (postVerifications st now caller body).2.submissionIdCounter = st.submissionIdCounter ∧
    ∃ ns, (postVerifications st now caller body).2.notifications = st.notifications ++ ns ∧
      ∀ n ∈ ns, n.isRead = false := by
  by_cases h1 : caller.role = "internal_verifier"
  · exact postVerifications_authorized_shape st now caller body (Or.inl h1)
  · by_cases h2 : caller.role = "external_verifier"
    · exact postVerifications_authorized_shape st now caller body (Or.inr h2)
    · simp [postVerifications, h1, h2]

/-! ===== Preservation of the workflow invariant ===== -/

theorem Inv_of_proj {st out : State} (inv : Inv st)
    (hs : out.submissions = st.submissions) (ha : out.assessments = st.assessments)
    (hc : out.submissionIdCounter = st.submissionIdCounter) : Inv out := by
  constructor
  · intro sub hsub
    rw [hs] at hsub; rw [hc]
    exact inv.subIdsLt sub hsub
  · rw [hs]; exact inv.subIdsNodup
  · intro a haa
    rw [ha] at haa; rw [hc]
    exact inv.assessRefsLt a haa
  · intro sub hsub
    rw [hs] at hsub
    rw [inv.statusMirrors sub hsub]
    simp only [statusFromLatest, latestAssessmentFor, MemStorage.getAssessmentsBySubmission, ha]

theorem Inv_of_core {st out : State} (inv : Inv st) (h : PreservesCore st out) : Inv out :=
  Inv_of_proj inv h.1 h.2.1 h.2.2.1

theorem Inv_applyEvent (st : State) (e : Event) (inv : Inv st) : Inv (applyEvent st e) := by
  cases e with
  | register now body => exact Inv_of_core inv (registerUser_preserves st now body)
  | departmentCreate caller body => exact Inv_of_core inv (createDepartment_preserves st body)
  | studyLevelCreate caller body => exact Inv_of_core inv (createStudyLevel_preserves st body)
  | courseCreate caller body => exact Inv_of_core inv (createCourse_preserves st body)
  | classIntakeCreate caller body => exact Inv_of_core inv (createClassIntake_preserves st body)
  | moduleCreate caller body => exact Inv_of_core inv (createModule_preserves st body)
  | deactivateUser now caller userId =>
    exact Inv_of_core inv (postUsersDeactivate_preserves st now caller userId)
  | unitCreate now caller body => exact Inv_of_core inv (postUnits_preserves st now caller body)
  | taskCreate now caller body => exact Inv_of_core inv (postTasks_preserves st now caller body)
  | assignmentCreate now caller body =>
    obtain ⟨hs, ha, hc, -⟩ := postAssignments_shape st now caller body
    exact Inv_of_proj inv hs ha hc
  | verificationCreate now caller body =>
    obtain ⟨hs, ha, hc, -⟩ := postVerifications_shape st now caller body
    exact Inv_of_proj inv hs ha hc
  | notificationRead now caller notificationId =>
    obtain ⟨hs, ha, hc, -⟩ := postNotificationRead_state st now caller notificationId
    exact Inv_of_proj inv hs ha hc
  | submissionCreate now caller files body =>
    simp only [applyEvent]
    rcases postSubmissions_state st now caller files body with
      ⟨hs, ha, hc, -⟩ | ⟨hs, ha, hc, -⟩
    · exact Inv_of_proj inv hs ha hc
    · constructor
      · intro s hsm
        rw [hs] at hsm; rw [hc]
        rcases List.mem_append.mp hsm with h | h
        · exact Nat.lt_succ_of_lt (inv.subIdsLt s h)
        · simp only [List.mem_singleton] at h
          subst h
          exact Nat.lt_succ_self _
      · rw [hs, List.map_append]
        refine List.Nodup.append inv.subIdsNodup (by simp) ?_
        intro x hx hy
        simp only [List.map_cons, List.map_nil, List.mem_singleton] at hy
        subst hy
        have := inv.subIdsLt _ (List.mem_map.mp hx).choose_spec.1
        have hxeq : (List.mem_map.mp hx).choose.id = (MemStorage.createSubmission st now
          { body with traineeId := caller.id, status := some "pending" }).1.id :=
          (List.mem_map.mp hx).choose_spec.2
        rw [hxeq] at this
        exact absurd this (Nat.lt_irrefl _)
      · intro a haa
        rw [ha] at haa; rw [hc]
        exact Nat.lt_succ_of_lt (inv.assessRefsLt a haa)
      · intro s hsm
        rw [hs] at hsm
        rcases List.mem_append.mp hsm with h | h
        · rw [inv.statusMirrors s h]
          simp only [statusFromLatest, latestAssessmentFor,
            MemStorage.getAssessmentsBySubmission, ha]
        · simp only [List.mem_singleton] at h
          subst h
          have hpend : (MemStorage.createSubmission st now
              { body with traineeId := caller.id, status := some "pending" }).1.status =
              "pending" := rfl
          rw [hpend]
          simp only [statusFromLatest, latestAssessmentFor,
            MemStorage.getAssessmentsBySubmission, ha]
          have hfil : st.assessments.filter (fun a => a.submissionId ==
              (MemStorage.createSubmission st now
                { body with traineeId := caller.id, status := some "pending" }).1.id) = [] := by
            rw [List.filter_eq_nil_iff]
            intro a haa
            have hlt := inv.assessRefsLt a haa
            have hne : a.submissionId ≠ st.submissionIdCounter := Nat.ne_of_lt hlt
            simpa using hne
          rw [hfil]
          rfl
  | assessmentCreate now caller body =>
    simp only [applyEvent]
    rcases postAssessments_state st now caller body with heq | hstate
    · rw [heq]; exact inv
    · obtain ⟨submission, hfound, hvalid, ha, hs, hc, -⟩ := hstate
      have hsubmem : submission ∈ st.submissions :=
        List.mem_of_find?_eq_some hfound
      have hsubid : submission.id = body.submissionId := by
        have := List.find?_some hfound
        simpa using this
      have hstat3 : body.status = "approved" ∨ body.status = "rejected" ∨
          body.status = "resubmit" := by
        have h := hvalid
        simp [validInsertAssessment, assessmentStatuses] at h
        tauto
      have hnewStatus : (if body.status == "approved" then "approved"
          else if body.status == "rejected" then "rejected" else "resubmit") = body.status := by
        rcases hstat3 with h | h | h <;> simp [h]
      have hidmap : (st.submissions.map (fun s =>
          if s.id == body.submissionId then
            { submission with status :=
                if body.status == "approved" then "approved"
                else if body.status == "rejected" then "rejected" else "resubmit" }
          else s)).map (fun s => s.id) = st.submissions.map (fun s => s.id) := by
        rw [List.map_map]
        refine List.map_congr_left ?_
        intro s hsm
        by_cases hid : s.id == body.submissionId
        · simp only [Function.comp, hid, if_true]
          have : s.id = body.submissionId := by simpa using hid
          rw [this, hsubid]
        · simp [Function.comp, hid]
      constructor
      · intro s hsm
        rw [hs] at hsm; rw [hc]
        obtain ⟨s0, hs0, hs0eq⟩ := List.mem_map.mp hsm
        by_cases hid : s0.id == body.submissionId
        · rw [← hs0eq]
          simp only [hid, if_true]
          have : submission.id < st.submissionIdCounter := inv.subIdsLt submission hsubmem
          simpa using this
        · rw [← hs0eq]
          simp only [hid, if_false]
          exact inv.subIdsLt s0 hs0
      · rw [hs, hidmap]
        exact inv.subIdsNodup
      · intro a haa
        rw [ha] at haa; rw [hc]
        rcases List.mem_append.mp haa with h | h
        · exact inv.assessRefsLt a h
        · simp only [List.mem_singleton] at h
          subst h
          have : submission.id < st.submissionIdCounter := inv.subIdsLt submission hsubmem
          rw [hsubid] at this
          exact this
      · intro s hsm
        rw [hs] at hsm
        obtain ⟨s0, hs0, hs0eq⟩ := List.mem_map.mp hsm
        subst hs0eq
        simp only [statusFromLatest, latestAssessmentFor,
          MemStorage.getAssessmentsBySubmission, ha, List.filter_append]
        by_cases hid : s0.id == body.submissionId
        · simp only [hid, if_true]
          have hpred : ((MemStorage.createAssessment st now
              { body with assessorId := caller.id }).1.submissionId ==
              { submission with status :=
                  if body.status == "approved" then "approved"
                  else if body.status == "rejected" then "rejected" else "resubmit" }.id) =
              true := by
            simp [MemStorage.createAssessment, hsubid]
          simp only [List.filter_cons, List.filter_nil, hpred, if_true]
          rw [List.getLast?_concat]
          simp only [MemStorage.createAssessment]
          rcases hstat3 with h | h | h <;> simp [h]
        · simp only [hid, Bool.false_eq_true, if_false]
          have hpred : ((MemStorage.createAssessment st now
              { body with assessorId := caller.id }).1.submissionId == s0.id) = false := by
            simp only [MemStorage.createAssessment]
            have : s0.id ≠ body.submissionId := by simpa using hid
            simp [this.symm]
          simp only [List.filter_cons, List.filter_nil, hpred, Bool.false_eq_true, if_false,
            List.append_nil]
          have := inv.statusMirrors s0 hs0
          simp only [statusFromLatest, latestAssessmentFor,
            MemStorage.getAssessmentsBySubmission] at this
          exact this

/-- Inv holds of any store with no submissions and no assessments — in
particular of the seeded initial store, whose seeding creates users,
departments, study levels, courses, class intakes, modules, units and tasks
but no submissions or assessments. -/
theorem Inv_of_empty {s0 : State} (hsub : s0.submissions = [])
    (hass : s0.assessments = []) : Inv s0 := by
  constructor
  · intro sub h; rw [hsub] at h; cases h
  · rw [hsub]; exact List.nodup_nil
  · intro a h; rw [hass] at h; cases h
  · intro sub h; rw [hsub] at h; cases h

theorem Inv_runEvents {s0 : State} (inv : Inv s0) :
    ∀ events : List Event, Inv (runEvents s0 events) := by
  intro events
  induction events generalizing s0 with
  | nil => exact inv
  | cons e es ih => exact ih (Inv_applyEvent s0 e inv)

/-! ===== The claims ===== -/

/-- C1: a POST /api/verifications call whose assessmentId references no
Assessment answers NotFound — but only after MemStorage.createVerification
has already run, so the Verification record is left in the store.  The
operation therefore does not abort without store writes: at this concrete
input the response is NotFound while the verifications collection has grown
from empty to one record. -/
theorem c1_missing_assessment_still_writes_verification :
    (postVerifications baseState 500 ivUser verifBodyDangling).1 =
      ApiResult.notFound "Assessment not found" ∧
    (postVerifications baseState 500 ivUser verifBodyDangling).2.verifications =
      [⟨1, 42, 3, "internal", "confirmed", none, 500⟩] ∧
    baseState.verifications = [] :=
  ⟨rfl, rfl, rfl⟩

/-- C2: in every state reachable through the API operations from a store
with no submissions and no assessments (as the seeded initial store is),
each submission's status equals the status of the most recently created
assessment referencing it, or "pending" when none exists. -/
theorem c2_submission_status_mirrors_latest_assessment (s0 : State)
    (events : List Event) (h0sub : s0.submissions = []) (h0ass : s0.assessments = []) :
    ∀ sub ∈ (runEvents s0 events).submissions,
      sub.status = statusFromLatest (runEvents s0 events) sub.id :=
  (Inv_runEvents (Inv_of_empty h0sub h0ass) events).statusMirrors

/-- Witness for C2: the invariant at the concrete trace c2Trace (register a
trainee and an assessor, assign, submit, approve) from the empty store. -/
theorem c2_submission_status_witness :
    emptyState.submissions = [] ∧ emptyState.assessments = [] ∧
    ∀ sub ∈ (runEvents emptyState c2Trace).submissions,
      sub.status = statusFromLatest (runEvents emptyState c2Trace) sub.id :=
  ⟨rfl, rfl, c2_submission_status_mirrors_latest_assessment emptyState c2Trace rfl rfl⟩

/-- C3: POST /api/assessments by an assessor with no Assignment linking the
target submission's traineeId and unitId to the caller answers Forbidden
and returns the store unchanged — no Assessment record is created. -/
theorem c3_unassigned_assessor_forbidden (st : State) (now : Int) (caller : User)
    (body : InsertAssessment) (submission : Submission)
    (hrole : caller.role = "assessor")
    (hvalid : validInsertAssessment body = true)
    (hsub : MemStorage.getSubmission st body.submissionId = some submission)
    (hnoassign : ∀ a ∈ st.assignments, a.assessorId = caller.id →
      ¬(a.traineeId = some submission.traineeId ∧ a.unitId = submission.unitId)) :
    postAssessments st now caller body =
      (ApiResult.forbidden "Forbidden: You are not assigned to this trainee", st) := by
  have hany : (MemStorage.getAssignmentsByAssessor st caller.id).any
      (fun a => a.traineeId == some submission.traineeId &&
        a.unitId == submission.unitId) = false := by
    rw [List.any_eq_false]
    intro a ha
    simp only [MemStorage.getAssignmentsByAssessor, List.mem_filter] at ha
    have hmem := ha.1
    have hassr : a.assessorId = caller.id := by simpa using ha.2
    intro hp
    simp only [Bool.and_eq_true, beq_iff_eq] at hp
    exact hnoassign a hmem hassr ⟨hp.1, hp.2⟩
  simp [postAssessments, hrole, hvalid, hsub, hany]

/-- Witness for C3: the unassigned assessor is refused on the concrete
store stateWithSub, which holds sub1 and no assignments. -/
theorem c3_unassigned_assessor_forbidden_witness :
    assessorUser.role = "assessor" ∧ validInsertAssessment assessBody = true ∧
    MemStorage.getSubmission stateWithSub assessBody.submissionId = some sub1 ∧
    postAssessments stateWithSub 300 assessorUser assessBody =
      (ApiResult.forbidden "Forbidden: You are not assigned to this trainee", stateWithSub) := by
  refine ⟨rfl, rfl, rfl, ?_⟩
  refine c3_unassigned_assessor_forbidden stateWithSub 300 assessorUser assessBody sub1
    rfl rfl rfl ?_
  intro a ha
  simp [stateWithSub, baseState, emptyState] at ha

/-- The notifications an authorized, validated, assigned POST
/api/assessments leaves: the trainee feedback notification, then — when the
assessment status is approved — one verification notification per user with
role internal_verifier. -/
theorem postAssessments_success_notifications (st : State) (now : Int) (caller : User)
    (body : InsertAssessment) (submission : Submission)
    (hrole : caller.role = "assessor")
    (hvalid : validInsertAssessment body = true)
    (hsub : MemStorage.getSubmission st body.submissionId = some submission)
    (hany : (MemStorage.getAssignmentsByAssessor st caller.id).any
      (fun a => a.traineeId == some submission.traineeId &&
        a.unitId == submission.unitId) = true) :
    (postAssessments st now caller body).2.notifications =
      st.notifications ++
        (⟨st.notificationIdCounter, submission.traineeId, "Assessment Feedback Available",
          "Your submission for " ++ submission.title ++ " has been assessed", false, now,
          "assessment", some st.assessmentIdCounter⟩ ::
         (if body.status == "approved" then
            notifBatch now (fun verifier =>
              ⟨verifier.id, "Verification Required", "A new assessment needs verification",
               false, "verification", some st.assessmentIdCounter⟩)
              (st.notificationIdCounter + 1)
              (MemStorage.getUsersByRole st "internal_verifier")
          else [])) := by
  simp only [MemStorage.getSubmission] at hsub
  simp only [postAssessments, hrole, hvalid, hsub, hany, Bool.not_true, Bool.not_false,
    Bool.false_eq_true, if_false, if_true, MemStorage.createAssessment,
    MemStorage.updateSubmission, MemStorage.getSubmission, logActivity,
    MemStorage.createActivityLog, MemStorage.createNotification]
  cases happ : body.status == "approved" with
  | true =>
    simp [happ, notifyEach_eq, MemStorage.getUsersByRole,
      MemStorage.createNotification, List.append_assoc]
  | false =>
    simp [happ, List.append_assoc]

/-- C4: a POST /api/assessments with status approved by the assigned
assessor creates, for each user who has role internal_verifier at that
time, a fresh Notification of type verification addressed to that user. -/
theorem c4_approved_assessment_notifies_internal_verifiers (st : State) (now : Int)
    (caller : User) (body : InsertAssessment) (submission : Submission)
    (hrole : caller.role = "assessor")
    (hstatus : body.status = "approved")
    (hsub : MemStorage.getSubmission st body.submissionId = some submission)
    (hassign : ∃ a ∈ st.assignments, a.assessorId = caller.id ∧
      a.traineeId = some submission.traineeId ∧ a.unitId = submission.unitId) :
    ∀ u ∈ st.users, u.role = "internal_verifier" →
      ∃ n ∈ addedNotifications st (postAssessments st now caller body).2,
        n.userId = u.id ∧ n.type = "verification" ∧ n.isRead = false := by
  have hvalid : validInsertAssessment body = true := by
    simp [validInsertAssessment, assessmentStatuses, hstatus]
  have hany : (MemStorage.getAssignmentsByAssessor st caller.id).any
      (fun a => a.traineeId == some submission.traineeId &&
        a.unitId == submission.unitId) = true := by
    rw [List.any_eq_true]
    obtain ⟨a, hamem, haass, hatr, haun⟩ := hassign
    refine ⟨a, ?_, ?_⟩
    · simp [MemStorage.getAssignmentsByAssessor, List.mem_filter, hamem, haass]
    · simp [hatr, haun]
  intro u hu hurole
  have hnot := postAssessments_success_notifications st now caller body submission
    hrole hvalid hsub hany
  rw [hstatus] at hnot
  simp only [beq_self_eq_true, if_true] at hnot
  rw [addedNotifications, hnot, List.drop_left]
  have humem : u ∈ MemStorage.getUsersByRole st "internal_verifier" := by
    simp [MemStorage.getUsersByRole, List.mem_filter, hu, hurole]
  obtain ⟨n, hn, hprops⟩ := notifBatch_mem now
    (fun verifier =>
      (⟨verifier.id, "Verification Required", "A new assessment needs verification",
        false, "verification", some st.assessmentIdCounter⟩ : InsertNotification))
    (MemStorage.getUsersByRole st "internal_verifier") humem (st.notificationIdCounter + 1)
  exact ⟨n, List.mem_cons_of_mem _ hn, hprops.1, hprops.2.1, hprops.2.2.1⟩

/-- Witness for C4 on the concrete store c4State (sub1 on file, assessor
assigned, ivUser the only internal verifier). -/
theorem c4_approved_assessment_notifies_internal_verifiers_witness :
    assessorUser.role = "assessor" ∧ assessBody.status = "approved" ∧
    MemStorage.getSubmission c4State assessBody.submissionId = some sub1 ∧
    (∃ a ∈ c4State.assignments, a.assessorId = assessorUser.id ∧
      a.traineeId = some sub1.traineeId ∧ a.unitId = sub1.unitId) ∧
    ∀ u ∈ c4State.users, u.role = "internal_verifier" →
      ∃ n ∈ addedNotifications c4State
          (postAssessments c4State 300 assessorUser assessBody).2,
        n.userId = u.id ∧ n.type = "verification" ∧ n.isRead = false := by
  refine ⟨rfl, rfl, rfl,
    ⟨⟨1, 1, assessorUser.id, 7, some traineeUser.id, 0⟩,
      List.mem_singleton.mpr rfl, rfl, rfl, rfl⟩, ?_⟩
  exact c4_approved_assessment_notifies_internal_verifiers c4State 300 assessorUser
    assessBody sub1 rfl rfl rfl
    ⟨⟨1, 1, assessorUser.id, 7, some traineeUser.id, 0⟩,
      List.mem_singleton.mpr rfl, rfl, rfl, rfl⟩

/-- The notifications an authorized, validated POST /api/verifications with
status confirmed and resolvable assessment and submission leaves: the
assessor notification, then — when the caller is an internal verifier —
one notification per user with role external_verifier. -/
theorem postVerifications_confirmed_notifications (st : State) (now : Int) (caller : User)
    (body : InsertVerification) (assessment : Assessment) (submission : Submission)
    (hrole : caller.role = "internal_verifier" ∨ caller.role = "external_verifier")
    (hstatus : body.status = "confirmed")
    (hvalid : validInsertVerification body = true)
    (hassess : MemStorage.getAssessment st body.assessmentId = some assessment)
    (hsubm : MemStorage.getSubmission st assessment.submissionId = some submission) :
    (postVerifications st now caller body).2.notifications =
      st.notifications ++
        (⟨st.notificationIdCounter, assessment.assessorId, "Verification Completed",
          "Your assessment has been verified", false, now, "verification",
          some st.verificationIdCounter⟩ ::
         (if caller.role == "internal_verifier" then
            notifBatch now (fun verifier =>
              ⟨verifier.id, "External Verification Required",
               "An assessment is ready for external verification", false, "verification",
               some st.verificationIdCounter⟩)
              (st.notificationIdCounter + 1)
              (MemStorage.getUsersByRole st "external_verifier")
          else [])) := by
  simp only [MemStorage.getAssessment] at hassess
  simp only [MemStorage.getSubmission] at hsubm
  rcases hrole with h | h <;>
    simp only [postVerifications, h, hvalid, hstatus, Bool.not_true, Bool.not_false,
      Bool.false_eq_true, if_false, if_true, MemStorage.createVerification,
      MemStorage.getAssessment, MemStorage.getSubmission, hassess, hsubm,
      MemStorage.createNotification, logActivity, MemStorage.createActivityLog,
      notifyEach_eq, MemStorage.getUsersByRole] <;>
    simp [List.append_assoc, List.singleton_append]

/-- C5 (amended): for a POST /api/verifications with status confirmed whose
referenced Assessment and its Submission exist, an internal-verifier caller
triggers a fresh verification Notification to each user who has role
external_verifier at that time, while an external-verifier caller triggers
no such fan-out — every notification the call adds is addressed to the
assessment's assessor. -/
theorem c5_confirmed_internal_fanout_amended (st : State) (now : Int) (caller : User)
    (body : InsertVerification) (assessment : Assessment) (submission : Submission)
    (hstatus : body.status = "confirmed")
    (hvalid : validInsertVerification body = true)
    (hassess : MemStorage.getAssessment st body.assessmentId = some assessment)
    (hsubm : MemStorage.getSubmission st assessment.submissionId = some submission) :
    (caller.role = "internal_verifier" →
      ∀ u ∈ st.users, u.role = "external_verifier" →
        ∃ n ∈ addedNotifications st (postVerifications st now caller body).2,
          n.userId = u.id ∧ n.type = "verification" ∧ n.isRead = false) ∧
    (caller.role = "external_verifier" →
      ∀ n ∈ addedNotifications st (postVerifications st now caller body).2,
        n.userId = assessment.assessorId) := by
  constructor
  · intro hrole u hu hurole
    have hnot := postVerifications_confirmed_notifications st now caller body assessment
      submission (Or.inl hrole) hstatus hvalid hassess hsubm
    rw [hrole] at hnot
    simp only [beq_self_eq_true, if_true] at hnot
    rw [addedNotifications, hnot, List.drop_left]
    have humem : u ∈ MemStorage.getUsersByRole st "external_verifier" := by
      simp [MemStorage.getUsersByRole, List.mem_filter, hu, hurole]
    obtain ⟨n, hn, hprops⟩ := notifBatch_mem now
      (fun verifier =>
        (⟨verifier.id, "External Verification Required",
          "An assessment is ready for external verification", false, "verification",
          some st.verificationIdCounter⟩ : InsertNotification))
      (MemStorage.getUsersByRole st "external_verifier") humem
      (st.notificationIdCounter + 1)
    exact ⟨n, List.mem_cons_of_mem _ hn, hprops.1, hprops.2.1, hprops.2.2.1⟩
  · intro hrole n hn
    have hnot := postVerifications_confirmed_notifications st now caller body assessment
      submission (Or.inr hrole) hstatus hvalid hassess hsubm
    rw [hrole] at hnot
    simp only [show (("external_verifier" : String) == "internal_verifier") = false from
      rfl, Bool.false_eq_true, if_false] at hnot
    rw [addedNotifications, hnot, List.drop_left] at hn
    simp only [List.mem_singleton] at hn
    subst hn
    rfl

/-- C5 counterexample: the claim as stated fails on the code.  With no
Assessment on file, an internal verifier posts a verification with status
confirmed — the Verification record is created (the create precedes the
lookup), an external-verifier user exists, and yet the call adds no
notification at all, so no Notification is addressed to that external
verifier. -/
theorem c5_confirmed_internal_fanout_counterexample :
    ivUser.role = "internal_verifier" ∧ verifBodyDangling.status = "confirmed" ∧
    evUser ∈ baseState.users ∧ evUser.role = "external_verifier" ∧
    (postVerifications baseState 500 ivUser verifBodyDangling).2.verifications =
      [⟨1, 42, 3, "internal", "confirmed", none, 500⟩] ∧
    addedNotifications baseState
      (postVerifications baseState 500 ivUser verifBodyDangling).2 = [] := by
  refine ⟨rfl, rfl, ?_, rfl, rfl, rfl⟩
  simp [baseState, emptyState]

/-- Witness for C5 on the concrete store stateWithAssessment (assess1 on
file for sub1, evUser the only external verifier). -/
theorem c5_confirmed_internal_fanout_witness :
    verifBody1.status = "confirmed" ∧ validInsertVerification verifBody1 = true ∧
    MemStorage.getAssessment stateWithAssessment verifBody1.assessmentId = some assess1 ∧
    MemStorage.getSubmission stateWithAssessment assess1.submissionId =
      some { sub1 with status := "approved" } ∧
    (ivUser.role = "internal_verifier" →
      ∀ u ∈ stateWithAssessment.users, u.role = "external_verifier" →
        ∃ n ∈ addedNotifications stateWithAssessment
            (postVerifications stateWithAssessment 700 ivUser verifBody1).2,
          n.userId = u.id ∧ n.type = "verification" ∧ n.isRead = false) := by
  refine ⟨rfl, rfl, rfl, rfl, ?_⟩
  exact (c5_confirmed_internal_fanout_amended stateWithAssessment 700 ivUser verifBody1
    assess1 { sub1 with status := "approved" } rfl rfl rfl rfl).1

/-- C6: a trainee's successful POST /api/submissions for a unit with no
Assignment matching the trainee and unit still creates the Submission (with
status pending) and its SubmissionFiles, and adds no Notification record at
all — in particular none addressed to any assessor. -/
theorem c6_submission_without_assignment_no_notification (st : State) (now : Int)
    (caller : User) (files : List UploadFile) (body : InsertSubmission)
    (hrole : caller.role = "trainee")
    (hupload : uploadArrayCheck files = none)
    (hvalid : validInsertSubmission { body with traineeId := caller.id } = true)
    (hnoassign : ∀ a ∈ st.assignments,
      ¬(a.traineeId = some caller.id ∧ a.unitId = body.unitId)) :
    (postSubmissions st now caller files body).1 = ApiResult.created ∧
    (postSubmissions st now caller files body).2.submissions =
      st.submissions ++ [(MemStorage.createSubmission st now
        { body with traineeId := caller.id, status := some "pending" }).1] ∧
    (MemStorage.createSubmission st now
      { body with traineeId := caller.id, status := some "pending" }).1.status =
      "pending" ∧
    (postSubmissions st now caller files body).2.submissionFiles =
      st.submissionFiles ++
        fileBatch now st.submissionIdCounter st.submissionFileIdCounter files ∧
    (postSubmissions st now caller files body).2.notifications = st.notifications := by
  have hfind : (st.assignments.filter
      (fun assignment => assignment.traineeId == some caller.id)).find?
      (fun a => a.unitId == body.unitId) = none := by
    rw [List.find?_eq_none]
    intro a ha
    simp only [List.mem_filter] at ha
    have htr : a.traineeId = some caller.id := by simpa using ha.2
    intro hp
    have hun : a.unitId = body.unitId := by simpa using hp
    exact hnoassign a ha.1 ⟨htr, hun⟩
  simp only [postSubmissions, hrole, hupload, hvalid, Bool.not_true, Bool.not_false,
    Bool.false_eq_true, if_false, if_true, MemStorage.createSubmission,
    storeFiles_eq, MemStorage.getAssignmentsByTrainee, hfind, logActivity,
    MemStorage.createActivityLog]
  exact ⟨rfl, rfl, rfl, rfl, rfl⟩

/-- Witness for C6: traineeUser submits one allow-listed file for unit 7 on
baseState, which has no assignments; the call succeeds and the
notifications collection is untouched. -/
theorem c6_submission_without_assignment_no_notification_witness :
    traineeUser.role = "trainee" ∧ uploadArrayCheck [file20] = none ∧
    validInsertSubmission { submissionBody with traineeId := traineeUser.id } = true ∧
    (postSubmissions baseState 100 traineeUser [file20] submissionBody).1 =
      ApiResult.created ∧
    (postSubmissions baseState 100 traineeUser [file20] submissionBody).2.notifications =
      baseState.notifications := by
  have h := c6_submission_without_assignment_no_notification baseState 100 traineeUser
    [file20] submissionBody rfl rfl rfl
    (by intro a ha; simp [baseState, emptyState] at ha)
  exact ⟨rfl, rfl, rfl, h.1, h.2.2.2.2⟩

/-- C7: the upload middleware accepts a file iff its mimetype is in the
allow-list and its size is at most 20×1024×1024 bytes; a file of exactly
that size passes while one byte more fails with the size-specific error;
and a rejected upload returns before the handler body, leaving the store —
in particular the submissions collection — unchanged. -/
theorem c7_upload_allowlist_and_size_boundary :
    (∀ f : UploadFile, uploadArrayCheck [f] = none ↔
      (f.mimetype ∈ allowedTypes ∧ f.size ≤ 20 * 1024 * 1024)) ∧
    uploadArrayCheck [file20] = none ∧
    uploadArrayCheck [file20plus] = some "File too large" ∧
    (∀ (st : State) (now : Int) (caller : User) (files : List UploadFile)
       (body : InsertSubmission) (e : String),
       caller.role = "trainee" → uploadArrayCheck files = some e →
       postSubmissions st now caller files body = (ApiResult.uploadError e, st)) := by
  refine ⟨?_, rfl, rfl, ?_⟩
  · intro f
    constructor
    · intro h
      by_cases hm : fileFilter f
      · by_cases hsz : f.size > 20 * 1024 * 1024
        · exfalso
          simp [uploadArrayCheck, uploadArrayCheck.go, hm, hsz] at h
        · refine ⟨?_, by omega⟩
          simpa [fileFilter] using hm
      · exfalso
        simp [uploadArrayCheck, uploadArrayCheck.go, hm] at h
    · rintro ⟨hmem, hsz⟩
      have hm : fileFilter f = true := by simp [fileFilter, hmem]
      have hsz' : ¬(f.size > 20 * 1024 * 1024) := by omega
      simp [uploadArrayCheck, uploadArrayCheck.go, hm, hsz']
  · intro st now caller files body e hrole hu
    simp [postSubmissions, hrole, hu]

/-- Witness for C7 at the 20 MiB boundary files and a concrete rejected
request. -/
theorem c7_upload_allowlist_and_size_boundary_witness :
    (uploadArrayCheck [file20] = none ↔
      (file20.mimetype ∈ allowedTypes ∧ file20.size ≤ 20 * 1024 * 1024)) ∧
    uploadArrayCheck [file20plus] = some "File too large" ∧
    traineeUser.role = "trainee" ∧
    postSubmissions baseState 100 traineeUser [file20plus] submissionBody =
      (ApiResult.uploadError "File too large", baseState) :=
  ⟨c7_upload_allowlist_and_size_boundary.1 file20,
   c7_upload_allowlist_and_size_boundary.2.2.1, rfl,
   c7_upload_allowlist_and_size_boundary.2.2.2 baseState 100 traineeUser [file20plus]
     submissionBody "File too large" rfl rfl⟩

/-- The status-counting switch leaves the turnaround accumulators alone. -/
theorem perfCount_totals (acc : PerfAcc) (submission : Submission) :
    (perfCount acc submission).totalTurnaround = acc.totalTurnaround ∧
    (perfCount acc submission).assessedCount = acc.assessedCount := by
  constructor <;>
    simp [perfCount, apply_ite PerfAcc.totalTurnaround, apply_ite PerfAcc.assessedCount]

/-- Folding the per-trainee loop accumulates exactly the first-assessment
turnarounds: their sum into totalTurnaround and their count into
assessedCount. -/
theorem perfFold_totals (st : State) :
    ∀ (subs : List Submission) (acc : PerfAcc),
      (subs.foldl (perfStep st) acc).totalTurnaround =
        acc.totalTurnaround +
          (subs.filterMap (fun submission =>
            (MemStorage.getAssessmentsBySubmission st submission.id).head?.map
              (fun assessment =>
                ((assessment.assessmentDate - submission.submissionDate : Int) : Rat) /
                  (1000 * 60 * 60 * 24)))).sum ∧
      (subs.foldl (perfStep st) acc).assessedCount =
        acc.assessedCount +
          (subs.filterMap (fun submission =>
            (MemStorage.getAssessmentsBySubmission st submission.id).head?.map
              (fun assessment =>
                ((assessment.assessmentDate - submission.submissionDate : Int) : Rat) /
                  (1000 * 60 * 60 * 24)))).length := by
  intro subs
  induction subs with
  | nil => intro acc; simp
  | cons x xs ih =>
    intro acc
    simp only [List.foldl_cons, List.filterMap_cons]
    obtain ⟨h1, h2⟩ := ih (perfStep st acc x)
    cases hh : (MemStorage.getAssessmentsBySubmission st x.id).head? with
    | none =>
      have hstep : perfStep st acc x = perfCount acc x := by simp [perfStep, hh]
      rw [h1, h2, hstep, (perfCount_totals acc x).1, (perfCount_totals acc x).2]
      simp [hh]
    | some assessment =>
      have hstep1 : (perfStep st acc x).totalTurnaround = acc.totalTurnaround +
          ((assessment.assessmentDate - x.submissionDate : Int) : Rat) /
            (1000 * 60 * 60 * 24) := by
        simp [perfStep, hh, (perfCount_totals acc x).1]
      have hstep2 : (perfStep st acc x).assessedCount = acc.assessedCount + 1 := by
        simp [perfStep, hh, (perfCount_totals acc x).2]
      rw [h1, h2, hstep1, hstep2]
      simp only [hh, Option.map_some', List.sum_cons, List.length_cons]
      constructor
      · ring
      · omega

/-- The per-trainee report row's averageTurnaround is the spec-side mean of
first-assessment turnarounds (0 when there are none). -/
theorem traineePerformanceFor_avg (st : State) (trainee : User) :
    (traineePerformanceFor st trainee).averageTurnaround =
      specAverageTurnaround st trainee.id := by
  obtain ⟨h1, h2⟩ := perfFold_totals st (MemStorage.getSubmissionsByTrainee st trainee.id)
    { approvedCount := 0, rejectedCount := 0, resubmitCount := 0, pendingCount := 0,
      totalTurnaround := 0, assessedCount := 0 }
  rw [show ((⟨0, 0, 0, 0, 0, 0⟩ : PerfAcc)).totalTurnaround = 0 from rfl, zero_add] at h1
  rw [show ((⟨0, 0, 0, 0, 0, 0⟩ : PerfAcc)).assessedCount = 0 from rfl, Nat.zero_add] at h2
  simp only [traineePerformanceFor, specAverageTurnaround, firstAssessmentTurnarounds,
    h1, h2]
  rcases Nat.eq_zero_or_pos ((MemStorage.getSubmissionsByTrainee st trainee.id).filterMap
      (fun submission =>
        (MemStorage.getAssessmentsBySubmission st submission.id).head?.map
          (fun assessment =>
            ((assessment.assessmentDate - submission.submissionDate : Int) : Rat) /
              (1000 * 60 * 60 * 24)))).length with hl | hl
  · rw [hl]
    simp
  · rw [if_pos hl, if_neg (Nat.pos_iff_ne_zero.mp hl)]

/-- C8: every row of the trainee-performance report carries as
averageTurnaround the mean, in days, over the trainee's assessed
submissions of (first assessment timestamp − submission timestamp), and 0 —
not an error value — when the trainee has no assessed submission. -/
theorem c8_trainee_performance_average_turnaround (st : State) (ids : List Nat)
    (r : TraineePerformance) (hr : r ∈ getTraineePerformanceReport st ids) :
    r.averageTurnaround = specAverageTurnaround st r.traineeId ∧
    (firstAssessmentTurnarounds st r.traineeId = [] → r.averageTurnaround = 0) := by
  simp only [getTraineePerformanceReport] at hr
  obtain ⟨t, ht, rfl⟩ := List.mem_map.mp hr
  constructor
  · exact traineePerformanceFor_avg st t
  · intro hempty
    rw [traineePerformanceFor_avg st t]
    simp only [specAverageTurnaround]
    rw [show firstAssessmentTurnarounds st (traineePerformanceFor st t).traineeId =
      firstAssessmentTurnarounds st t.id from rfl] at hempty
    rw [hempty]
    simp

/-- Witness for C8: traineeUser has no assessed submission on baseState
(averageTurnaround 0) and one assessed submission on stateWithAssessment. -/
theorem c8_trainee_performance_average_turnaround_witness :
    (traineePerformanceFor baseState traineeUser ∈
      getTraineePerformanceReport baseState []) ∧
    firstAssessmentTurnarounds baseState
      (traineePerformanceFor baseState traineeUser).traineeId = [] ∧
    (traineePerformanceFor baseState traineeUser).averageTurnaround = 0 ∧
    (traineePerformanceFor stateWithAssessment traineeUser ∈
      getTraineePerformanceReport stateWithAssessment []) ∧
    (traineePerformanceFor stateWithAssessment traineeUser).averageTurnaround =
      specAverageTurnaround stateWithAssessment
        (traineePerformanceFor stateWithAssessment traineeUser).traineeId := by
  have hmem1 : traineePerformanceFor baseState traineeUser ∈
      getTraineePerformanceReport baseState [] := List.mem_singleton.mpr rfl
  have hmem2 : traineePerformanceFor stateWithAssessment traineeUser ∈
      getTraineePerformanceReport stateWithAssessment [] := List.mem_singleton.mpr rfl
  refine ⟨hmem1, rfl, ?_, hmem2, ?_⟩
  · exact (c8_trainee_performance_average_turnaround baseState [] _ hmem1).2 rfl
  · exact (c8_trainee_performance_average_turnaround stateWithAssessment [] _ hmem2).1

/-- createCourses appends exactly the created course records and rewrites no
other hierarchy collection. -/
theorem createCourses_state (ps : List InsertCourse) :
    ∀ st : State, (createCourses st ps).2.courses = st.courses ++ (createCourses st ps).1 ∧
      (createCourses st ps).2.classIntakes = st.classIntakes ∧
      (createCourses st ps).2.modules = st.modules := by
  induction ps with
  | nil => intro st; simp [createCourses]
  | cons p ps ih =>
    intro st
    obtain ⟨h1, h2, h3⟩ := ih (MemStorage.createCourse st p).2
    refine ⟨?_, h2, h3⟩
    simp only [createCourses]
    rw [h1]
    simp [MemStorage.createCourse, List.append_assoc]

/-- createClassIntakes appends exactly the created class intakes. -/
theorem createClassIntakes_state (ps : List InsertClassIntake) :
    ∀ st : State,
      (createClassIntakes st ps).2.classIntakes =
        st.classIntakes ++ (createClassIntakes st ps).1 ∧
      (createClassIntakes st ps).2.courses = st.courses ∧
      (createClassIntakes st ps).2.modules = st.modules := by
  induction ps with
  | nil => intro st; simp [createClassIntakes]
  | cons p ps ih =>
    intro st
    obtain ⟨h1, h2, h3⟩ := ih (MemStorage.createClassIntake st p).2
    refine ⟨?_, h2, h3⟩
    simp only [createClassIntakes]
    rw [h1]
    simp [MemStorage.createClassIntake, List.append_assoc]

/-- createModules appends exactly the created modules. -/
theorem createModules_state (ps : List InsertModule) :
    ∀ st : State, (createModules st ps).2.modules = st.modules ++ (createModules st ps).1 ∧
      (createModules st ps).2.courses = st.courses ∧
      (createModules st ps).2.classIntakes = st.classIntakes := by
  induction ps with
  | nil => intro st; simp [createModules]
  | cons p ps ih =>
    intro st
    obtain ⟨h1, h2, h3⟩ := ih (MemStorage.createModule st p).2
    refine ⟨?_, h2, h3⟩
    simp only [createModules]
    rw [h1]
    simp [MemStorage.createModule, List.append_assoc]

/-- Created course records carry their payload's departmentId. -/
theorem createCourses_dept (did : Nat) :
    ∀ (ps : List InsertCourse), (∀ p ∈ ps, p.departmentId = did) →
      ∀ st : State, ∀ c ∈ (createCourses st ps).1, c.departmentId = did := by
  intro ps
  induction ps with
  | nil => intro _ st c hc; simp [createCourses] at hc
  | cons p ps ih =>
    intro hall st c hc
    simp only [createCourses, List.mem_cons] at hc
    rcases hc with rfl | hc
    · exact hall p (List.mem_cons_self _ _)
    · exact ih (fun q hq => hall q (List.mem_cons_of_mem _ hq)) _ c hc

/-- Created class intakes carry their payload's courseId. -/
theorem createClassIntakes_course (cid : Nat) :
    ∀ (ps : List InsertClassIntake), (∀ p ∈ ps, p.courseId = cid) →
      ∀ st : State, ∀ c ∈ (createClassIntakes st ps).1, c.courseId = cid := by
  intro ps
  induction ps with
  | nil => intro _ st c hc; simp [createClassIntakes] at hc
  | cons p ps ih =>
    intro hall st c hc
    simp only [createClassIntakes, List.mem_cons] at hc
    rcases hc with rfl | hc
    · exact hall p (List.mem_cons_self _ _)
    · exact ih (fun q hq => hall q (List.mem_cons_of_mem _ hq)) _ c hc

/-- Created modules carry their payload's courseId. -/
theorem createModules_course (cid : Nat) :
    ∀ (ps : List InsertModule), (∀ p ∈ ps, p.courseId = cid) →
      ∀ st : State, ∀ c ∈ (createModules st ps).1, c.courseId = cid := by
  intro ps
  induction ps with
  | nil => intro _ st c hc; simp [createModules] at hc
  | cons p ps ih =>
    intro hall st c hc
    simp only [createModules, List.mem_cons] at hc
    rcases hc with rfl | hc
    · exact hall p (List.mem_cons_self _ _)
    · exact ih (fun q hq => hall q (List.mem_cons_of_mem _ hq)) _ c hc

/-- C9: after creating courses under a department and class intakes and
modules under a course — starting from a store with no children for those
parents — getCoursesByDepartment, getClassIntakesByCourse and
getModulesByCourse each return exactly the created children, in insertion
order. -/
theorem c9_hierarchy_round_trip (st : State)
    (cps : List InsertCourse) (ips : List InsertClassIntake) (mps : List InsertModule)
    (did cid : Nat)
    (hc0 : MemStorage.getCoursesByDepartment st did = [])
    (hi0 : MemStorage.getClassIntakesByCourse st cid = [])
    (hm0 : MemStorage.getModulesByCourse st cid = [])
    (hallc : ∀ p ∈ cps, p.departmentId = did)
    (halli : ∀ p ∈ ips, p.courseId = cid)
    (hallm : ∀ p ∈ mps, p.courseId = cid) :
    MemStorage.getCoursesByDepartment
        (createModules (createClassIntakes (createCourses st cps).2 ips).2 mps).2 did =
      (createCourses st cps).1 ∧
    MemStorage.getClassIntakesByCourse
        (createModules (createClassIntakes (createCourses st cps).2 ips).2 mps).2 cid =
      (createClassIntakes (createCourses st cps).2 ips).1 ∧
    MemStorage.getModulesByCourse
        (createModules (createClassIntakes (createCourses st cps).2 ips).2 mps).2 cid =
      (createModules (createClassIntakes (createCourses st cps).2 ips).2 mps).1 := by
  obtain ⟨hcC, hcI, hcM⟩ := createCourses_state cps st
  obtain ⟨hiI, hiC, hiM⟩ := createClassIntakes_state ips (createCourses st cps).2
  obtain ⟨hmM, hmC, hmI⟩ := createModules_state mps (createClassIntakes (createCourses st cps).2 ips).2
  refine ⟨?_, ?_, ?_⟩
  · simp only [MemStorage.getCoursesByDepartment] at hc0 ⊢
    rw [hmC, hiC, hcC, List.filter_append, hc0, List.nil_append]
    exact List.filter_eq_self.mpr (fun c hc => by
      simp [createCourses_dept did cps hallc st c hc])
  · simp only [MemStorage.getClassIntakesByCourse] at hi0 ⊢
    rw [hmI, hiI, hcI, List.filter_append, hi0, List.nil_append]
    exact List.filter_eq_self.mpr (fun c hc => by
      simp [createClassIntakes_course cid ips halli _ c hc])
  · simp only [MemStorage.getModulesByCourse] at hm0 ⊢
    rw [hmM, hiM, hcM, List.filter_append, hm0, List.nil_append]
    exact List.filter_eq_self.mpr (fun c hc => by
      simp [createModules_course cid mps hallm _ c hc])

/-- Witness for C9: the concrete department-1 / course-1 hierarchy built on
the empty store. -/
theorem c9_hierarchy_round_trip_witness :
    MemStorage.getCoursesByDepartment emptyState 1 = [] ∧
    MemStorage.getClassIntakesByCourse emptyState 1 = [] ∧
    MemStorage.getModulesByCourse emptyState 1 = [] ∧
    (∀ p ∈ c9CoursePs, p.departmentId = 1) ∧
    (∀ p ∈ c9IntakePs, p.courseId = 1) ∧
    (∀ p ∈ c9ModulePs, p.courseId = 1) ∧
    MemStorage.getCoursesByDepartment
        (createModules (createClassIntakes (createCourses emptyState c9CoursePs).2
          c9IntakePs).2 c9ModulePs).2 1 =
      (createCourses emptyState c9CoursePs).1 := by
  have h := c9_hierarchy_round_trip emptyState c9CoursePs c9IntakePs c9ModulePs 1 1
    rfl rfl rfl (by decide) (by decide) (by decide)
  exact ⟨rfl, rfl, rfl, by decide, by decide, by decide, h.1⟩

/-- Replacing the id-matched element of a list by a record with the same id
moves find? to the replacement. -/
theorem find?_id_map_update (nid : Nat) (upd : Notification) :
    ∀ (l : List Notification) (n : Notification),
      l.find? (fun m => m.id == nid) = some n → upd.id = n.id →
      (l.map (fun m => if m.id == nid then upd else m)).find? (fun m => m.id == nid) =
        some upd := by
  intro l
  induction l with
  | nil => intro n h; cases h
  | cons x xs ih =>
    intro n h hupd
    by_cases hx : (x.id == nid) = true
    · rw [List.find?_cons, hx] at h
      injection h with h
      subst h
      have hu : (upd.id == nid) = true := by rw [hupd]; exact hx
      simp only [List.map_cons, if_pos hx, List.find?_cons, hu]
    · have hx' : (x.id == nid) = false := by
        cases hxx : x.id == nid
        · rfl
        · exact absurd hxx hx
      rw [List.find?_cons, hx'] at h
      simp only [List.map_cons, hx', Bool.false_eq_true, if_false, List.find?_cons]
      exact ih n h hupd

/-- C10: createNotification stores and returns the notification with isRead
forced to false whatever the payload says; the mark-as-read route answers
Forbidden (store untouched) for any caller other than the addressee and
flips exactly the addressed notification's isRead to true for the
addressee; and across every API event, a notification that is read in the
post-state was already stored before unless the event is the mark-as-read
request of its own addressee. -/
theorem c10_notification_isRead_lifecycle (st : State) :
    (∀ (now : Int) (payload : InsertNotification),
      (MemStorage.createNotification st now payload).1.isRead = false ∧
      (MemStorage.createNotification st now payload).2.notifications =
        st.notifications ++ [(MemStorage.createNotification st now payload).1]) ∧
    (∀ (now : Int) (caller : User) (nid : Nat) (n : Notification),
      MemStorage.getNotification st nid = some n → n.userId ≠ caller.id →
      postNotificationRead st now caller nid =
        (ApiResult.forbidden "Forbidden: You can only mark your own notifications as read",
          st)) ∧
    (∀ (now : Int) (caller : User) (nid : Nat) (n : Notification),
      MemStorage.getNotification st nid = some n → n.userId = caller.id →
      (postNotificationRead st now caller nid).1 = ApiResult.ok ∧
      MemStorage.getNotification (postNotificationRead st now caller nid).2 nid =
        some { n with isRead := true }) ∧
    (∀ (e : Event) (n : Notification), n ∈ (applyEvent st e).notifications →
      n.isRead = true →
      n ∈ st.notifications ∨
      ∃ (now : Int) (caller : User) (nid : Nat),
        e = Event.notificationRead now caller nid ∧ caller.id = n.userId) := by
  refine ⟨fun now payload => ⟨rfl, rfl⟩, ?_, ?_, ?_⟩
  · intro now caller nid n hg hne
    simp [postNotificationRead, hg, hne]
  · intro now caller nid n hg heq
    have hg' := hg
    simp only [MemStorage.getNotification] at hg'
    have hbne : (n.userId != caller.id) = false := by simp [heq]
    constructor
    · simp only [postNotificationRead, MemStorage.getNotification, hg', hbne,
        Bool.false_eq_true, if_false, MemStorage.updateNotification]
    · simp only [postNotificationRead, MemStorage.getNotification, hg', hbne,
        Bool.false_eq_true, if_false, MemStorage.updateNotification]
      exact find?_id_map_update nid { n with isRead := true } st.notifications n hg' rfl
  · intro e n hn htrue
    cases e with
    | register now body =>
      simp only [applyEvent] at hn
      rw [(registerUser_preserves st now body).2.2.2] at hn
      exact Or.inl hn
    | departmentCreate caller body =>
      simp only [applyEvent] at hn
      rw [(createDepartment_preserves st body).2.2.2] at hn
      exact Or.inl hn
    | studyLevelCreate caller body =>
      simp only [applyEvent] at hn
      rw [(createStudyLevel_preserves st body).2.2.2] at hn
      exact Or.inl hn
    | courseCreate caller body =>
      simp only [applyEvent] at hn
      rw [(createCourse_preserves st body).2.2.2] at hn
      exact Or.inl hn
    | classIntakeCreate caller body =>
      simp only [applyEvent] at hn
      rw [(createClassIntake_preserves st body).2.2.2] at hn
      exact Or.inl hn
    | moduleCreate caller body =>
      simp only [applyEvent] at hn
      rw [(createModule_preserves st body).2.2.2] at hn
      exact Or.inl hn
    | deactivateUser now caller userId =>
      simp only [applyEvent] at hn
      rw [(postUsersDeactivate_preserves st now caller userId).2.2.2] at hn
      exact Or.inl hn
    | unitCreate now caller body =>
      simp only [applyEvent] at hn
      rw [(postUnits_preserves st now caller body).2.2.2] at hn
      exact Or.inl hn
    | taskCreate now caller body =>
      simp only [applyEvent] at hn
      rw [(postTasks_preserves st now caller body).2.2.2] at hn
      exact Or.inl hn
    | assignmentCreate now caller body =>
      obtain ⟨-, -, -, ns, hns, hunread⟩ := postAssignments_shape st now caller body
      simp only [applyEvent] at hn
      rw [hns] at hn
      rcases List.mem_append.mp hn with h | h
      · exact Or.inl h
      · exact absurd ((hunread n h).symm.trans htrue) Bool.false_ne_true
    | submissionCreate now caller files body =>
      simp only [applyEvent] at hn
      rcases postSubmissions_state st now caller files body with
        ⟨-, -, -, hns⟩ | ⟨-, -, -, ns, hns, hunread⟩
      · rw [hns] at hn
        exact Or.inl hn
      · rw [hns] at hn
        rcases List.mem_append.mp hn with h | h
        · exact Or.inl h
        · exact absurd ((hunread n h).symm.trans htrue) Bool.false_ne_true
    | assessmentCreate now caller body =>
      simp only [applyEvent] at hn
      rcases postAssessments_state st now caller body with heq |
        ⟨submission, -, -, -, -, -, ns, hns, hunread⟩
      · rw [heq] at hn
        exact Or.inl hn
      · rw [hns] at hn
        rcases List.mem_append.mp hn with h | h
        · exact Or.inl h
        · exact absurd ((hunread n h).symm.trans htrue) Bool.false_ne_true
    | verificationCreate now caller body =>
      obtain ⟨-, -, -, ns, hns, hunread⟩ := postVerifications_shape st now caller body
      simp only [applyEvent] at hn
      rw [hns] at hn
      rcases List.mem_append.mp hn with h | h
      · exact Or.inl h
      · exact absurd ((hunread n h).symm.trans htrue) Bool.false_ne_true
    | notificationRead now caller nid =>
      obtain ⟨-, -, -, hdisj⟩ := postNotificationRead_state st now caller nid
      simp only [applyEvent] at hn
      rcases hdisj with heq | ⟨n0, hg, huid, hmap⟩
      · rw [heq] at hn
        exact Or.inl hn
      · rw [hmap] at hn
        obtain ⟨m, hm, hmeq⟩ := List.mem_map.mp hn
        by_cases hid : (m.id == nid) = true
        · rw [if_pos hid] at hmeq
          subst hmeq
          exact Or.inr ⟨now, caller, nid, rfl, huid.symm⟩
        · rw [if_neg hid] at hmeq
          subst hmeq
          exact Or.inl hm

/-- Witness for C10: a payload with isRead set true is stored unread; a
non-addressee caller is refused; the addressee's mark-as-read flips the
stored record. -/
theorem c10_notification_isRead_lifecycle_witness :
    (MemStorage.createNotification baseState 50
      ⟨traineeUser.id, "Title", "Message", true, "system", none⟩).1.isRead = false ∧
    MemStorage.getNotification notifState 1 = some notif1 ∧
    notif1.userId ≠ assessorUser.id ∧
    postNotificationRead notifState 60 assessorUser 1 =
      (ApiResult.forbidden "Forbidden: You can only mark your own notifications as read",
        notifState) ∧
    notif1.userId = traineeUser.id ∧
    MemStorage.getNotification (postNotificationRead notifState 60 traineeUser 1).2 1 =
      some { notif1 with isRead := true } := by
  refine ⟨((c10_notification_isRead_lifecycle baseState).1 50
    ⟨traineeUser.id, "Title", "Message", true, "system", none⟩).1, rfl, by decide, ?_, rfl, ?_⟩
  · exact (c10_notification_isRead_lifecycle notifState).2.1 60 assessorUser 1 notif1
      rfl (by decide)
  · exact ((c10_notification_isRead_lifecycle notifState).2.2.1 60 traineeUser 1 notif1
      rfl rfl).2

end POE
